import Mathlib

/-!
Verification of the Data Formulator visualization-spec assembly engine and
table-lineage store against its natural-language specification.

The embedding models the TypeScript source shallowly:
* JavaScript values are the inductive `JVal` (numbers restricted to integers,
  with explicit `nan` / `inf` constructors for the special values the code can
  produce; object keys are ordered, as JS property insertion order is).
* Environment primitives whose exact JS semantics are not reproducible in a
  shallow embedding (`Number(...)` coercion, `Date.parse`, `JSON.parse`) are
  parameters collected in `JsPrims`; theorems quantify over them, so every
  result holds for the real primitives in particular.
* Thrown exceptions are modelled with `Except String`.
* Redux reducers (immer mutations) are modelled as functions from state to
  state, mutation order preserved.
-/

/-! ## JavaScript value model -/

mutual

/-- A JavaScript value. Finite numbers are modelled as rationals (every
IEEE double is a rational), with explicit `nan` and `±Infinity`
constructors for the special values; object entries keep JS property
insertion order. -/
inductive JVal where
  | str (s : String)
  | num (q : ℚ)
  | nan
  | inf (neg : Bool)
  | bool (b : Bool)
  | null
  | undef
  | arr (elems : JList)
  | obj (entries : JEntries)
deriving DecidableEq

/-- Elements of a JS array (a list of `JVal`, given as part of the mutual
inductive so that structural recursion over values is available). -/
inductive JList where
  | nil
  | cons (v : JVal) (tl : JList)
deriving DecidableEq

/-- Entries of a JS object: ordered key/value pairs. -/
inductive JEntries where
  | nil
  | cons (k : String) (v : JVal) (tl : JEntries)
deriving DecidableEq

end

namespace JList

/-- Convert a Lean list of values into a `JList`. -/
def ofList : List JVal → JList
  | [] => .nil
  | v :: tl => .cons v (ofList tl)

/-- Convert a `JList` back to a Lean list. -/
def toList : JList → List JVal
  | .nil => []
  | .cons v tl => v :: toList tl

/-- Length of a `JList`. -/
def length : JList → Nat
  | .nil => 0
  | .cons _ tl => tl.length + 1

/-- Indexing, `none` when out of range. -/
def get? : JList → Nat → Option JVal
  | .nil, _ => none
  | .cons v _, 0 => some v
  | .cons _ tl, n + 1 => tl.get? n

/-- `arr[i] = v` for an existing index (JS also allows writing past the end,
extending the array with holes, which no registered template path does; out
of range writes append after padding with `undef`, matching the holes'
observable `undefined` reads). -/
def set : JList → Nat → JVal → JList
  | .nil, 0, v => .cons v .nil
  | .nil, n + 1, v => .cons .undef (set .nil n v)
  | .cons _ tl, 0, v => .cons v tl
  | .cons w tl, n + 1, v => .cons w (tl.set n v)

/-- `Array.prototype.reverse`. -/
def reverse : JList → JList
  | l => ofList l.toList.reverse

end JList

namespace JEntries

/-- Convert a Lean association list into ordered object entries. -/
def ofList : List (String × JVal) → JEntries
  | [] => .nil
  | (k, v) :: tl => .cons k v (ofList tl)

/-- Convert object entries back to a Lean association list. -/
def toList : JEntries → List (String × JVal)
  | .nil => []
  | .cons k v tl => (k, v) :: toList tl

/-- First value stored under key `k`, if any (JS object keys are unique, so
first = only). -/
def lookup : JEntries → String → Option JVal
  | .nil, _ => none
  | .cons k v tl, k' => if k = k' then some v else tl.lookup k'

/-- Key-membership test, modelling the JS `in` operator. -/
def hasKey : JEntries → String → Bool
  | .nil, _ => false
  | .cons k _ tl, k' => k = k' || tl.hasKey k'

/-- JS property assignment `o[k] = v`: updates an existing key in place
(keeping its position) or appends a new one. -/
def set : JEntries → String → JVal → JEntries
  | .nil, k, v => .cons k v .nil
  | .cons k w tl, k', v => if k = k' then .cons k v tl else .cons k w (tl.set k' v)

/-- JS `delete o[k]`. -/
def erase : JEntries → String → JEntries
  | .nil, _ => .nil
  | .cons k v tl, k' => if k = k' then tl.erase k' else .cons k v (tl.erase k')

end JEntries

/-- Build an object value from an association list (`Object.fromEntries`:
later duplicate keys overwrite the value but keep the first position). -/
def objFromEntries (l : List (String × JVal)) : JEntries :=
  l.foldl (fun es kv => es.set kv.1 kv.2) .nil

/-- Decimal rendering of a rational whose denominator divides a power of
ten, as JS renders the corresponding double (`0.9` → `"0.9"`); other
denominators (which no IEEE double has) fall back to the raw rational
print. -/
def ratDecimalRepr (q : ℚ) : String :=
  if q.den = 1 then toString q.num
  else
    match (List.range 1100).find? (fun k => q.den ∣ 10 ^ k) with
    | some k =>
      let digits := toString (q.num.natAbs * (10 ^ k) / q.den)
      let padded := String.mk (List.replicate (k + 1 - digits.length) '0') ++ digits
      let intPart := padded.toList.take (padded.length - k)
      let fracPart := (padded.toList.drop (padded.length - k)).reverse.dropWhile (· = '0')
      (if q.num < 0 then "-" else "") ++ String.mk intPart ++
        (if fracPart.isEmpty then "" else "." ++ String.mk fracPart.reverse)
    | none => toString q

/-- JS truthiness. -/
def jsTruthy : JVal → Bool
  | .str s => s ≠ ""
  | .num n => n ≠ 0
  | .nan => false
  | .inf _ => true
  | .bool b => b
  | .null => false
  | .undef => false
  | .arr _ => true
  | .obj _ => true

/-- Truthiness of an optional string field (absent or `''` is falsy). -/
def jsTruthyStr : Option String → Bool
  | none => false
  | some s => s ≠ ""

mutual

/-- JS `String(v)` conversion (`ToString`): arrays join their elements with
commas, `null`/`undefined` elements becoming empty strings; plain objects
print as `[object Object]`. -/
def jsToString : JVal → String
  | .str s => s
  | .num n => ratDecimalRepr n
  | .nan => "NaN"
  | .inf neg => if neg then "-Infinity" else "Infinity"
  | .bool b => if b then "true" else "false"
  | .null => "null"
  | .undef => "undefined"
  | .arr l => jsToStringList l
  | .obj _ => "[object Object]"

/-- `Array.prototype.toString`: comma-joined elements. -/
def jsToStringList : JList → String
  | .nil => ""
  | .cons v .nil => jsToStringElem v
  | .cons v (.cons w tl) => jsToStringElem v ++ "," ++ jsToStringList (.cons w tl)

/-- One array element inside a join: `null`/`undefined` render empty. -/
def jsToStringElem : JVal → String
  | .null => ""
  | .undef => ""
  | v => jsToString v

end

mutual

/-- `JSON.parse(JSON.stringify(v))`: drops object keys whose value is
`undefined`, maps `undefined` array elements and the non-finite numbers to
`null`. -/
def jsonClone : JVal → JVal
  | .str s => .str s
  | .num n => .num n
  | .nan => .null
  | .inf _ => .null
  | .bool b => .bool b
  | .null => .null
  | .undef => .null
  | .arr l => .arr (jsonCloneList l)
  | .obj es => .obj (jsonCloneEntries es)

/-- Clone of array elements (`undefined` becomes `null`). -/
def jsonCloneList : JList → JList
  | .nil => .nil
  | .cons v tl => .cons (jsonClone v) (jsonCloneList tl)

/-- Clone of object entries (`undefined`-valued keys disappear). -/
def jsonCloneEntries : JEntries → JEntries
  | .nil => .nil
  | .cons _ .undef tl => jsonCloneEntries tl
  | .cons k v tl => .cons k (jsonClone v) (jsonCloneEntries tl)

end

/-- `[...new Set(xs)]`: deduplicate keeping first occurrences in order.
The accumulator holds the values already seen. -/
def dedupFirstAux (seen : List JVal) : List JVal → List JVal
  | [] => []
  | x :: xs => if x ∈ seen then dedupFirstAux seen xs else x :: dedupFirstAux (seen ++ [x]) xs

/-- `[...new Set(xs)]`. -/
def dedupFirst (l : List JVal) : List JVal := dedupFirstAux [] l

/-- Comparator of the default JS `Array.prototype.sort`: compare the
`String(...)` conversions lexicographically. -/
def jsSortLE (a b : JVal) : Bool := decide (jsToString a ≤ jsToString b)

/-- Insert into a sorted list (stable: equal keys keep relative order). -/
def jsSortInsert (a : JVal) : List JVal → List JVal
  | [] => [a]
  | b :: l => if jsSortLE a b then a :: b :: l else b :: jsSortInsert a l

/-- Default-comparator `Array.prototype.sort()` (stable insertion sort over
the string conversions). -/
def jsSortAsc : List JVal → List JVal
  | [] => []
  | a :: l => jsSortInsert a (jsSortAsc l)

/-- JS property read `v[k]` with a string key: `undefined` for absent keys
and on primitives (string character indexing, which no modelled code path
reaches, is not reproduced). Reading from `null`/`undefined` is a
`TypeError`; callers that need that distinction use `getPropExc`. -/
def jsGetProp : JVal → String → JVal
  | .obj es, k => (es.lookup k).getD .undef
  | .arr l, k =>
    match k.toNat? with
    | some i => (l.get? i).getD .undef
    | none => .undef
  | _, _ => JVal.undef

/-- JS property read whose receiver may be nullish: `null`/`undefined`
receivers throw a `TypeError`. -/
def getPropExc : JVal → String → Except String JVal
  | .null, _ => .error "TypeError: cannot read properties of null"
  | .undef, _ => .error "TypeError: cannot read properties of undefined"
  | v, k => .ok (jsGetProp v k)

/-- JS index read `v[i]` whose receiver may be nullish. -/
def getIdxExc : JVal → Nat → Except String JVal
  | .null, _ => .error "TypeError: cannot read properties of null"
  | .undef, _ => .error "TypeError: cannot read properties of undefined"
  | .arr l, i => .ok ((l.get? i).getD .undef)
  | .obj es, i => .ok ((es.lookup (toString i)).getD .undef)
  | _, _ => .ok JVal.undef

/-- One step of a template path: a string key or a numeric index
(`(string | number)[]` in the catalogue). -/
inductive JKey where
  | str (s : String)
  | num (n : Nat)
deriving DecidableEq

/-- Read `v[key]` during template-path navigation. JS throws on nullish
receivers; on other primitives the read yields `undefined`. -/
def getKeyE : JVal → JKey → Except String JVal
  | .null, _ => .error "TypeError: cannot read properties of null"
  | .undef, _ => .error "TypeError: cannot read properties of undefined"
  | v, .str s => .ok (jsGetProp v s)
  | .arr l, .num i => .ok ((l.get? i).getD .undef)
  | .obj es, .num i => .ok ((es.lookup (toString i)).getD .undef)
  | _, .num _ => .ok JVal.undef

/-- Write `v[key] = nv`. In strict mode (ES modules) assigning a property of
a primitive, `null` or `undefined` throws a `TypeError`. -/
def setKeyE : JVal → JKey → JVal → Except String JVal
  | .obj es, .str s, nv => .ok (.obj (es.set s nv))
  | .obj es, .num i, nv => .ok (.obj (es.set (toString i) nv))
  | .arr l, .num i, nv => .ok (.arr (l.set i nv))
  | .arr l, .str s, nv =>
    match s.toNat? with
    | some i => .ok (.arr (l.set i nv))
    | none => .error "TypeError: unsupported array property write"
  | _, _, _ => .error "TypeError: cannot set properties of a primitive"

/-- Navigate `path` from `root` (reading every intermediate key as the
source's `ref = ref[key]` loop does) and replace the value at the final key
by `upd` applied to the current value there. The empty path never occurs in
the template catalogue and is modelled as an error. -/
def modifyAtPath (root : JVal) (path : List JKey) (upd : JVal → Except String JVal) :
    Except String JVal :=
  match path with
  | [] => .error "TypeError: empty template path"
  | [k] => do
    let cur ← getKeyE root k
    let nv ← upd cur
    setKeyE root k nv
  | k :: rest => do
    let child ← getKeyE root k
    let child' ← modifyAtPath child rest upd
    setKeyE root k child'

/-- Assignment to a top-level property of a value that is always an object
in every reachable state (the cloned template skeleton). -/
def setTopProp (v : JVal) (k : String) (nv : JVal) : JVal :=
  match v with
  | .obj es => .obj (es.set k nv)
  | w => w

/-- `Object.entries(v)` for the merge step of path filling: objects give
their entries, arrays indexed entries, primitives none. -/
def jsEntriesOf : JVal → List (String × JVal)
  | .obj es => es.toList
  | .arr l => (l.toList.enum).map (fun iv => (toString iv.1, iv.2))
  | _ => []

/-! ## Data model (componentTypes.ts) -/

/-- `DataType` from `componentTypes.ts`:
`'string' | 'number' | 'date' | 'boolean' | 'auto'`. -/
inductive DataType where
  | string
  | number
  | date
  | boolean
  | auto
deriving DecidableEq

/-- `EncodingItem` from `componentTypes.ts`. Optional strings model the
optional JS fields; the enumerated unions (`AggrOp`, sort orders, stack
modes) are strings in the source and every comparison on them is a string
comparison, so they are kept as strings. The `scale` member is never read
by any embedded operation and is omitted. -/
structure EncodingItem where
  fieldID : Option String := none
  aggregate : Option String := none
  stack : Option String := none
  sortOrder : Option String := none
  sortBy : Option String := none
  scheme : Option String := none
  bin : Bool := false
deriving DecidableEq

/-- `EncodingMap`: a JS object keyed by channel name, modelled as an ordered
association list (the iteration order of `Object.entries`). -/
abbrev EncodingMap := List (String × EncodingItem)

/-- `FieldItem` from `componentTypes.ts`. `transform`, `temporary`,
`levels` and `description` are not read by any embedded operation and are
omitted. -/
structure FieldItem where
  id : String
  name : String
  type : DataType
  source : String
  domain : List JVal
  tableRef : String
  semanticType : Option String := none
deriving DecidableEq

/-! ## Type inference -/

/-- The filter `v != null && v !== ''` (loose inequality with `null` also
excludes `undefined`). -/
def jsNonNull (v : JVal) : Bool :=
  !(v = JVal.null || v = JVal.undef) && v ≠ JVal.str ""

/-- `typeof v === 'boolean' || v === 'true' || v === 'false'`. -/
def isBooleanLike : JVal → Bool
  | .bool _ => true
  | .str s => s = "true" || s = "false"
  | _ => false

/-- `inferTypeFromValueArray` from `componentTypes.ts`. The numeric test
`!isNaN(Number(v)) && isFinite(Number(v))` and the date test
`!isNaN(Date.parse(v))` are environment primitives passed in as `isNum`
and `isDate`. -/
def inferTypeFromValueArray (isNum isDate : JVal → Bool) (values : List JVal) : DataType :=
  if values.isEmpty then .auto
  else
    let nonNullValues := values.filter jsNonNull
    if nonNullValues.isEmpty then .auto
    else if nonNullValues.all isBooleanLike then .boolean
    else if nonNullValues.all isNum then .number
    else if nonNullValues.all isDate then .date
    else .string

/-- `inferDataType` from `viewUtils.ts` (same policy as
`inferTypeFromValueArray`, duplicated in the source). -/
def inferDataType (isNum isDate : JVal → Bool) (values : List JVal) : DataType :=
  if values.isEmpty then .auto
  else
    let nonNullValues := values.filter jsNonNull
    if nonNullValues.isEmpty then .auto
    else if nonNullValues.all isBooleanLike then .boolean
    else if nonNullValues.all isNum then .number
    else if nonNullValues.all isDate then .date
    else .string

/-- `getDType` from the chart utilities: maps a declared `DataType` (with
sample values for `'auto'`) to a Vega-Lite display type string. -/
def getDType (isNum isDate : JVal → Bool) (type : DataType) (values : List JVal) : String :=
  match type with
  | .auto =>
    let nonNullValues := values.filter jsNonNull
    if nonNullValues.isEmpty then "nominal"
    else if nonNullValues.all isBooleanLike then "nominal"
    else if nonNullValues.all isNum then "quantitative"
    else if nonNullValues.all isDate then "temporal"
    else "nominal"
  | .number => "quantitative"
  | .date => "temporal"
  | .boolean => "nominal"
  | .string => "nominal"

/-! ## Environment primitives -/

/-- JS environment functions used by the assembler whose exact semantics
(IEEE parsing, calendar arithmetic, full JSON grammar) are not reproducible
in the embedding. All theorems quantify over them, so they hold for the
real browser primitives in particular. -/
structure JsPrims where
  /-- `!isNaN(Number(v)) && isFinite(Number(v))`. -/
  isNum : JVal → Bool
  /-- `!isNaN(Date.parse(v))`. -/
  isDate : JVal → Bool
  /-- `JSON.parse` (`none` models a thrown `SyntaxError`). -/
  jsonParse : String → Option JVal
  /-- The `ToNumber` coercion used by `Math.min`/`Math.max`; expected to
  return a `num`, `nan` or `inf` value. -/
  toNumber : JVal → JVal

/-! ## Chart template registry (ChartTemplates) -/

/-- Shorthand: build an object value from an association list. -/
def jobj (l : List (String × JVal)) : JVal := .obj (JEntries.ofList l)

/-- Shorthand: build an array value from a list. -/
def jarr (l : List JVal) : JVal := .arr (JList.ofList l)

/-- A catalogue `paths` entry: either one path (`(string|number)[]`) or a
list of paths (`(string|number)[][]`). -/
inductive PathSpec where
  | single (p : List JKey)
  | multi (ps : List (List JKey))

/-- The assembler's normalization of a `paths` entry
(`pathObj.length > 0 && Array.isArray(pathObj[0]) ? pathObj : [pathObj]`). -/
def PathSpec.toPathList : PathSpec → List (List JKey)
  | .single p => [p]
  | .multi [] => [[]]
  | .multi ps => ps

/-- `ChartTemplate` from `componentTypes.ts`; the `icon` member is
presentational only and omitted. A post-processor may throw, hence the
`Except` result. -/
structure ChartTemplate where
  chart : String
  template : JVal
  channels : List String
  paths : List (String × PathSpec)
  postProcessor : Option (JVal → List JVal → Except String JVal) := none

/-- `f` mapped over a list, propagating a thrown exception (JS `map` with a
throwing callback). -/
def mapExc (f : α → Except ε β) : List α → Except ε (List β)
  | [] => .ok []
  | x :: xs => do
    let y ← f x
    let ys ← mapExc f xs
    .ok (y :: ys)

/-- `filter` with a throwing callback. -/
def filterExc (p : α → Except ε Bool) : List α → Except ε (List α)
  | [] => .ok []
  | x :: xs => do
    let b ← p x
    let ys ← filterExc p xs
    .ok (if b then x :: ys else ys)

/-- `r[key]` where `key` is an arbitrary value (`ToPropertyKey` converts it
to a string) and the row may be nullish. -/
def rowIndex (r : JVal) (key : JVal) : Except String JVal :=
  getPropExc r (jsToString key)

/-- `Math.min`-style two-value minimum over coerced numbers. -/
def jsNumMin : JVal → JVal → JVal
  | .nan, _ => .nan
  | _, .nan => .nan
  | .inf true, _ => .inf true
  | _, .inf true => .inf true
  | .inf false, x => x
  | x, .inf false => x
  | .num p, .num q => .num (min p q)
  | _, _ => .nan

/-- `Math.max`-style two-value maximum over coerced numbers. -/
def jsNumMax : JVal → JVal → JVal
  | .nan, _ => .nan
  | _, .nan => .nan
  | .inf false, _ => .inf false
  | _, .inf false => .inf false
  | .inf true, x => x
  | x, .inf true => x
  | .num p, .num q => .num (max p q)
  | _, _ => .nan

/-- `Math.min(...args)` (starts from `+Infinity`; any NaN poisons). -/
def jsMathMin (P : JsPrims) (args : List JVal) : JVal :=
  args.foldl (fun acc v => jsNumMin acc (P.toNumber v)) (.inf false)

/-- `Math.max(...args)` (starts from `-Infinity`). -/
def jsMathMax (P : JsPrims) (args : List JVal) : JVal :=
  args.foldl (fun acc v => jsNumMax acc (P.toNumber v)) (.inf true)

/-- The `Ranged Dot Plot` post-processor: copy a nominal `y` (else `x`)
encoding into the line layer's `detail` channel. -/
def rangedDotPostProcessor (vgSpec : JVal) (_table : List JVal) : Except String JVal := do
  let enc ← getPropExc vgSpec "encoding"
  let y ← getPropExc enc "y"
  let ytype := match y with
    | .null => JVal.undef
    | .undef => JVal.undef
    | v => jsGetProp v "type"
  if ytype = .str "nominal" then
    modifyAtPath vgSpec [.str "layer", .num 0, .str "encoding", .str "detail"]
      (fun _ => .ok (jsonClone y))
  else
    let x ← getPropExc enc "x"
    let xtype := match x with
      | .null => JVal.undef
      | .undef => JVal.undef
      | v => jsGetProp v "type"
    if xtype = .str "nominal" then
      modifyAtPath vgSpec [.str "layer", .num 0, .str "encoding", .str "detail"]
        (fun _ => .ok (jsonClone x))
    else
      pure vgSpec

/-- The `Boxplot` post-processor: force a non-nominal `x` to nominal. -/
def boxplotPostProcessor (vgSpec : JVal) (_table : List JVal) : Except String JVal := do
  let enc ← getPropExc vgSpec "encoding"
  let x ← getPropExc enc "x"
  if jsTruthy x && !(jsGetProp x "type" == .str "nominal") then
    modifyAtPath vgSpec [.str "encoding", .str "x", .str "type"] (fun _ => .ok (.str "nominal"))
  else
    pure vgSpec

/-- The `Heat Map` post-processor: force non-nominal `y` and `x` to
nominal. -/
def heatMapPostProcessor (vgSpec : JVal) (_table : List JVal) : Except String JVal := do
  let enc ← getPropExc vgSpec "encoding"
  let y ← getPropExc enc "y"
  let vg1 ← if jsTruthy y && !(jsGetProp y "type" == .str "nominal") then
      modifyAtPath vgSpec [.str "encoding", .str "y", .str "type"] (fun _ => .ok (.str "nominal"))
    else
      pure vgSpec
  let enc1 ← getPropExc vg1 "encoding"
  let x ← getPropExc enc1 "x"
  if jsTruthy x && !(jsGetProp x "type" == .str "nominal") then
    modifyAtPath vg1 [.str "encoding", .str "x", .str "type"] (fun _ => .ok (.str "nominal"))
  else
    pure vg1

/-- The filter expression template string of the pyramid post-processor. -/
def pyramidFilterStr (colorField v : JVal) : String :=
  "datum[\"" ++ jsToString colorField ++ "\"] == \"" ++ jsToString v ++ "\""

/-- The `Pyramid Chart` post-processor. Its whole body is wrapped in
`try { ... } catch { }` with `return vgSpec` outside, so a throw anywhere
keeps the mutations already applied; each write is therefore staged
explicitly. -/
def pyramidPostProcessor (P : JsPrims) (vgSpec : JVal) (table : List JVal) :
    Except String JVal :=
  let readColor : Except String (JVal × List JVal) := do
    let hc ← getPropExc vgSpec "hconcat"
    let h0 ← getIdxExc hc 0
    let encv ← getPropExc h0 "encoding"
    let color ← getPropExc encv "color"
    let colorField ← getPropExc color "field"
    let vals ← mapExc (fun r => rowIndex r colorField) table
    .ok (colorField, dedupFirst vals)
  match readColor with
  | .error _ => .ok vgSpec
  | .ok (colorField, colorValues) =>
    let cv0 := colorValues.getD 0 .undef
    let cv1 := colorValues.getD 1 .undef
    match modifyAtPath vgSpec [.str "hconcat", .num 0, .str "transform"]
        (fun _ => .ok (jarr [jobj [("filter", .str (pyramidFilterStr colorField cv0))]])) with
    | .error _ => .ok vgSpec
    | .ok vg1 =>
      match modifyAtPath vg1 [.str "hconcat", .num 0, .str "title"] (fun _ => .ok cv0) with
      | .error _ => .ok vg1
      | .ok vg2 =>
        match modifyAtPath vg2 [.str "hconcat", .num 1, .str "transform"]
            (fun _ => .ok (jarr [jobj [("filter", .str (pyramidFilterStr colorField cv1))]])) with
        | .error _ => .ok vg2
        | .ok vg3 =>
          match modifyAtPath vg3 [.str "hconcat", .num 1, .str "title"] (fun _ => .ok cv1) with
          | .error _ => .ok vg3
          | .ok vg4 =>
            let readX : Except String (List JVal) := do
              let hc ← getPropExc vg4 "hconcat"
              let h0 ← getIdxExc hc 0
              let encv ← getPropExc h0 "encoding"
              let x ← getPropExc encv "x"
              let xField ← getPropExc x "field"
              let filtered ← filterExc (fun r => do
                  let v ← rowIndex r colorField
                  .ok (v == cv0 || v == cv1)) table
              let xVals ← mapExc (fun r => rowIndex r xField) filtered
              .ok (dedupFirst xVals)
            match readX with
            | .error _ => .ok vg4
            | .ok xValues =>
              let domain := jarr [jsMathMin P (xValues ++ [.num 0]), jsMathMax P xValues]
              match modifyAtPath vg4
                  [.str "hconcat", .num 0, .str "encoding", .str "x", .str "scale", .str "domain"]
                  (fun _ => .ok domain) with
              | .error _ => .ok vg4
              | .ok vg5 =>
                match modifyAtPath vg5
                    [.str "hconcat", .num 1, .str "encoding", .str "x", .str "scale"]
                    (fun _ => .ok (jobj [("domain", domain)])) with
                | .error _ => .ok vg5
                | .ok vg6 => .ok vg6

/-- Path `['encoding', channel]`. -/
def encPath (c : String) : List JKey := [.str "encoding", .str c]

/-- The `tablePlots` templates (`Auto` and the `Table` sentinel). -/
def tablePlots : List ChartTemplate :=
  [ { chart := "Auto", template := jobj [], channels := [], paths := [] },
    { chart := "Table", template := jobj [], channels := [], paths := [] } ]

/-- The `scatterPlots` templates. -/
def scatterPlots : List ChartTemplate :=
  [ { chart := "Scatter Plot",
      template := jobj [("mark", .str "circle"), ("encoding", jobj [])],
      channels := ["x", "y", "color", "size", "column", "row"],
      paths := [("x", .single (encPath "x")), ("y", .single (encPath "y")),
                ("color", .single (encPath "color")), ("size", .single (encPath "size")),
                ("column", .single (encPath "column")), ("row", .single (encPath "row"))] },
    { chart := "Linear Regression",
      template := jobj [("layer", jarr
        [ jobj [("mark", .str "circle"),
                ("encoding", jobj [("x", jobj []), ("y", jobj []),
                                   ("color", jobj []), ("size", jobj [])])],
          jobj [("mark", jobj [("type", .str "line"), ("color", .str "red")]),
                ("transform", jarr [jobj [("regression", .str "field1"),
                                          ("on", .str "field2"),
                                          ("group", .str "field3")]]),
                ("encoding", jobj [("x", jobj []), ("y", jobj [])])] ])],
      channels := ["x", "y", "size", "color", "column"],
      paths :=
        [("x", .multi [[.str "layer", .num 0, .str "encoding", .str "x"],
                       [.str "layer", .num 1, .str "encoding", .str "x"],
                       [.str "layer", .num 1, .str "transform", .num 0, .str "on"]]),
         ("y", .multi [[.str "layer", .num 0, .str "encoding", .str "y"],
                       [.str "layer", .num 1, .str "encoding", .str "y"],
                       [.str "layer", .num 1, .str "transform", .num 0, .str "regression"]]),
         ("color", .single [.str "layer", .num 0, .str "encoding", .str "color"]),
         ("size", .single [.str "layer", .num 0, .str "encoding", .str "size"])] },
    { chart := "Ranged Dot Plot",
      template := jobj
        [("encoding", jobj []),
         ("layer", jarr
           [ jobj [("mark", .str "line"), ("encoding", jobj [("detail", jobj [])])],
             jobj [("mark", jobj [("type", .str "point"), ("filled", .bool true)]),
                   ("encoding", jobj [("color", jobj [])])] ])],
      channels := ["x", "y", "color"],
      paths := [("x", .single (encPath "x")), ("y", .single (encPath "y")),
                ("color", .single [.str "layer", .num 1, .str "encoding", .str "color"])],
      postProcessor := some rangedDotPostProcessor },
    { chart := "Boxplot",
      template := jobj [("mark", .str "boxplot"), ("encoding", jobj [])],
      channels := ["x", "y", "color", "opacity", "column", "row"],
      paths := ["x", "y", "color", "opacity", "column", "row"].map
        (fun channel => (channel, PathSpec.single (encPath channel))),
      postProcessor := some boxplotPostProcessor } ]

/-- The `barCharts` templates (the pyramid post-processor needs the
environment primitives for its `Math.min`/`Math.max` coercions). -/
def barCharts (P : JsPrims) : List ChartTemplate :=
  [ { chart := "Bar Chart",
      template := jobj [("mark", .str "bar"), ("encoding", jobj [])],
      channels := ["x", "y", "color", "column", "row"],
      paths := [("x", .single (encPath "x")), ("y", .single (encPath "y")),
                ("color", .single (encPath "color")), ("column", .single (encPath "column")),
                ("row", .single (encPath "row"))] },
    { chart := "Pyramid Chart",
      template := jobj
        [("spacing", .num 0),
         ("resolve", jobj [("scale", jobj [("y", .str "shared")])]),
         ("hconcat", jarr
           [ jobj [("mark", .str "bar"),
                   ("encoding", jobj
                     [("y", jobj []),
                      ("x", jobj [("scale", jobj [("reverse", .bool true)]),
                                  ("stack", .null)]),
                      ("color", jobj [("legend", .null)]),
                      ("opacity", jobj [("value", .num (9 / 10 : ℚ))])])],
             jobj [("mark", .str "bar"),
                   ("encoding", jobj
                     [("y", jobj [("axis", .null)]),
                      ("x", jobj [("stack", .null)]),
                      ("color", jobj [("legend", .null)]),
                      ("opacity", jobj [("value", .num (9 / 10 : ℚ))])])] ]),
         ("config", jobj [("view", jobj [("stroke", .null)]),
                          ("axis", jobj [("grid", .bool false)])])],
      channels := ["x", "y", "color"],
      paths :=
        [("x", .multi [[.str "hconcat", .num 0, .str "encoding", .str "x"],
                       [.str "hconcat", .num 1, .str "encoding", .str "x"]]),
         ("y", .multi [[.str "hconcat", .num 0, .str "encoding", .str "y"],
                       [.str "hconcat", .num 1, .str "encoding", .str "y"]]),
         ("color", .multi [[.str "hconcat", .num 0, .str "encoding", .str "color"],
                           [.str "hconcat", .num 1, .str "encoding", .str "color"]])],
      postProcessor := some (pyramidPostProcessor P) },
    { chart := "Grouped Bar Chart",
      template := jobj [("mark", .str "bar"), ("encoding", jobj [])],
      channels := ["x", "y", "group"],
      paths := [("x", .single (encPath "x")), ("y", .single (encPath "y")),
                ("group", .multi [[.str "encoding", .str "xOffset"],
                                  [.str "encoding", .str "color"]])] },
    { chart := "Stacked Bar Chart",
      template := jobj [("mark", .str "bar"), ("encoding", jobj [])],
      channels := ["x", "y", "color", "column", "row"],
      paths := [("x", .single (encPath "x")), ("y", .single (encPath "y")),
                ("color", .single (encPath "color")), ("column", .single (encPath "column")),
                ("row", .single (encPath "row"))] },
    { chart := "Histogram",
      template := jobj [("mark", .str "bar"), ("encoding", jobj [])],
      channels := ["x", "y", "color", "column", "row"],
      paths := [("x", .single (encPath "x")), ("y", .single (encPath "y")),
                ("color", .single (encPath "color")), ("column", .single (encPath "column")),
                ("row", .single (encPath "row"))] } ]

/-- The `lineCharts` templates. -/
def lineCharts : List ChartTemplate :=
  [ { chart := "Line Chart",
      template := jobj [("mark", .str "line"), ("encoding", jobj [])],
      channels := ["x", "y", "color", "column", "row"],
      paths := [("x", .single (encPath "x")), ("y", .single (encPath "y")),
                ("color", .single (encPath "color")), ("column", .single (encPath "column")),
                ("row", .single (encPath "row"))] },
    { chart := "Dotted Line Chart",
      template := jobj [("mark", jobj [("type", .str "line"), ("point", .bool true)]),
                        ("encoding", jobj [])],
      channels := ["x", "y", "color", "column", "row"],
      paths := [("x", .single (encPath "x")), ("y", .single (encPath "y")),
                ("color", .single (encPath "color")), ("column", .single (encPath "column")),
                ("row", .single (encPath "row"))] } ]

/-- The `customCharts` templates. -/
def customCharts : List ChartTemplate :=
  [ { chart := "Custom Point",
      template := jobj [("mark", .str "circle"), ("encoding", jobj [])],
      channels := ["x", "y", "color", "opacity", "size", "shape", "column", "row"],
      paths := ["x", "y", "color", "opacity", "size", "shape", "column", "row"].map
        (fun channel => (channel, PathSpec.single (encPath channel))) },
    { chart := "Custom Line",
      template := jobj [("mark", .str "line"), ("encoding", jobj [])],
      channels := ["x", "y", "color", "opacity", "detail", "column", "row"],
      paths := (["x", "y", "color", "opacity", "column", "row"].map
        (fun channel => (channel, PathSpec.single (encPath channel)))) ++
        [("detail", PathSpec.single (encPath "detail"))] },
    { chart := "Custom Bar",
      template := jobj [("mark", .str "bar"), ("encoding", jobj [])],
      channels := ["x", "y", "color", "opacity", "size", "shape", "column", "row"],
      paths := ["x", "y", "color", "opacity", "size", "shape", "column", "row"].map
        (fun channel => (channel, PathSpec.single (encPath channel))) },
    { chart := "Custom Rect",
      template := jobj [("mark", .str "rect"), ("encoding", jobj [])],
      channels := ["x", "y", "x2", "y2", "color", "opacity", "column", "row"],
      paths := ["x", "y", "x2", "y2", "color", "opacity", "column", "row"].map
        (fun channel => (channel, PathSpec.single (encPath channel))) },
    { chart := "Custom Area",
      template := jobj [("mark", .str "area"), ("encoding", jobj [])],
      channels := ["x", "y", "x2", "y2", "color", "column", "row"],
      paths := ["x", "y", "x2", "y2", "color", "column", "row"].map
        (fun channel => (channel, PathSpec.single (encPath channel))) } ]

/-- The `tableCharts` templates. -/
def tableCharts : List ChartTemplate :=
  [ { chart := "Heat Map",
      template := jobj [("mark", .str "rect"), ("encoding", jobj [])],
      channels := ["x", "y", "color", "column", "row"],
      paths := ["x", "y", "color", "column", "row"].map
        (fun channel => (channel, PathSpec.single (encPath channel))),
      postProcessor := some heatMapPostProcessor } ]

/-- `CHART_TEMPLATES`: the full catalogue, keyed by category, in insertion
order. -/
def CHART_TEMPLATES (P : JsPrims) : List (String × List ChartTemplate) :=
  [("table", tablePlots), ("scatter", scatterPlots), ("bar", barCharts P),
   ("line", lineCharts), ("table-based", tableCharts), ("custom", customCharts)]

/-- `getChartTemplate`:
`Object.values(CHART_TEMPLATES).flat().find(t => t.chart === chartType)`. -/
def getChartTemplate (P : JsPrims) (chartType : String) : Option ChartTemplate :=
  (((CHART_TEMPLATES P).map Prod.snd).flatten).find? (fun t => t.chart = chartType)

/-- `getChartChannels`: `getChartTemplate(chartType)?.channels || []`. -/
def getChartChannels (P : JsPrims) (chartType : String) : List String :=
  ((getChartTemplate P chartType).map ChartTemplate.channels).getD []

/-! ## Spec assembler (assembleVegaChart) -/

/-- Property assignment on the association list that models the
`encodingObj` object being built. -/
def objSetL (l : List (String × JVal)) (k : String) (v : JVal) : List (String × JVal) :=
  match l with
  | [] => [(k, v)]
  | (k1, w) :: tl => if k1 = k then (k1, v) :: tl else (k1, w) :: objSetL tl k v

/-- Property read on the `encodingObj` association list (`undefined` when
absent). -/
def objGetL (l : List (String × JVal)) (k : String) : JVal :=
  match l with
  | [] => .undef
  | (k1, w) :: tl => if k1 = k then w else objGetL tl k

/-- The JS `in` operator on the `encodingObj` association list. -/
def objHasL (l : List (String × JVal)) (k : String) : Bool :=
  l.any (fun kv => kv.1 = k)

/-- `o[k][sub] = v` preceded, where the source writes it, by
`if (!o[k]) o[k] = {}`. The target is an object whenever the source reaches
such an assignment (`scale` and `legend` are only ever set to objects);
a falsy target gets the fresh `{}` of the guard. -/
def setNestedL (l : List (String × JVal)) (k sub : String) (v : JVal) :
    List (String × JVal) :=
  match objGetL l k with
  | .obj es => objSetL l k (.obj (es.set sub v))
  | _ => objSetL l k (.obj (JEntries.ofList [(sub, v)]))

/-- `String.prototype.includes`. -/
def strIncludes (s sub : String) : Bool :=
  sub = "" || (s.splitOn sub).length > 1

/-- The `// Handle aggregations` block of the loop body, for a resolved
field `f`. -/
def aggregationStep (aggrPreprocessed : Bool) (encoding : EncodingItem) (f : FieldItem)
    (e : List (String × JVal)) : List (String × JVal) :=
  if aggrPreprocessed then
    if jsTruthyStr encoding.aggregate then
      if encoding.aggregate == some "count" then
        objSetL (objSetL (objSetL e "field" (.str "_count"))
          "title" (.str "Count")) "type" (.str "quantitative")
      else
        objSetL (objSetL e "field"
          (.str (f.name ++ "_" ++ encoding.aggregate.getD "")))
          "type" (.str "quantitative")
    else e
  else
    if jsTruthyStr encoding.aggregate then
      let e1 := objSetL e "aggregate" (.str (encoding.aggregate.getD ""))
      if objGetL e1 "aggregate" == JVal.str "count" then
        objSetL e1 "title" (.str "Count")
      else e1
    else e

/-- The `// Special handling for line charts` block. -/
def lineChartScaleStep (chartType channel : String) (e : List (String × JVal)) :
    List (String × JVal) :=
  if objGetL e "type" == JVal.str "quantitative" &&
      strIncludes chartType "Line" && channel = "x" then
    objSetL e "scale" (jobj [("nice", .bool false)])
  else e

/-- The `// Handle color encoding for nominal fields` block: stabilize the
scale domain against the field's full known domain, restrict the legend to
the present values, and shrink legend/switch palette at 16 or more
categories. -/
def colorDomainStep (workingTable : List JVal) (channel : String) (f : FieldItem)
    (e : List (String × JVal)) : List (String × JVal) :=
  if objGetL e "type" == JVal.str "nominal" && channel = "color" then
    let actualDomain := dedupFirst (workingTable.map (fun r => jsGetProp r f.name))
    let e1 := if actualDomain.all (fun v => f.domain.contains v) &&
        f.domain.length > actualDomain.length then
        let scaleValues := jsSortAsc (dedupFirst f.domain)
        let legendValues := jsSortAsc actualDomain
        objSetL (objSetL e "scale" (jobj [("domain", jarr scaleValues)]))
          "legend" (jobj [("values", jarr legendValues)])
      else e
    let e2 := if actualDomain.length ≥ 16 then
        setNestedL (setNestedL e1 "legend" "symbolSize" (.num 12))
          "legend" "labelFontSize" (.num 8)
      else e1
    let e3 := if (dedupFirst f.domain).length ≥ 16 then
        setNestedL e2 "scale" "scheme" (.str "tableau20")
      else e2
    e3
  else e

/-- The `if (field)` block of the loop body: field name, display type (with
the calendar-year override), aggregation, line-chart scale and color-domain
handling. -/
def fieldStep (P : JsPrims) (chartType : String) (aggrPreprocessed : Bool)
    (workingTable : List JVal) (channel : String) (encoding : EncodingItem)
    (f : FieldItem) (e : List (String × JVal)) : List (String × JVal) :=
  let e := objSetL e "field" (.str f.name)
  let e := objSetL e "type"
    (.str (getDType P.isNum P.isDate f.type (workingTable.map (fun r => jsGetProp r f.name))))
  let e := if f.semanticType == some "Year" then
      if ["color", "size", "column", "row"].contains channel then
        objSetL e "type" (.str "nominal")
      else
        objSetL e "type" (.str "temporal")
    else e
  let e := aggregationStep aggrPreprocessed encoding f e
  let e := lineChartScaleStep chartType channel e
  colorDomainStep workingTable channel f e

/-- The `// Handle sorting` block: default and channel-keyed sorts flag the
encoding only; an explicit JSON value list additionally adds a draw-order
encoding to the chart object for stacked bar/area color channels. A parse
or `.reverse()` failure is caught by the source's `try`/`catch` and leaves
both untouched. -/
def sortStep (P : JsPrims) (encoding : EncodingItem) (channel : String)
    (field : Option FieldItem) (encodingObj : List (String × JVal)) (vgObj : JVal) :
    List (String × JVal) × JVal :=
  if jsTruthyStr encoding.sortBy || jsTruthyStr encoding.sortOrder then
    let sortOrder := if jsTruthyStr encoding.sortOrder then
        encoding.sortOrder.getD ""
      else "ascending"
    if !jsTruthyStr encoding.sortBy || encoding.sortBy == some "default" then
      (objSetL encodingObj "sort" (.str sortOrder), vgObj)
    else if encoding.sortBy == some "x" || encoding.sortBy == some "y" then
      (objSetL encodingObj "sort"
        (.str ((if sortOrder = "ascending" then "" else "-") ++ encoding.sortBy.getD "")),
       vgObj)
    else
      match P.jsonParse (encoding.sortBy.getD "") with
      | none => (encodingObj, vgObj)
      | some parsed =>
        match getPropExc parsed "values" with
        | .error _ => (encodingObj, vgObj)
        | .ok sortedValues =>
          let rev : Except Unit JVal := if sortOrder = "ascending" then .ok sortedValues
            else match sortedValues with
              | .arr l => .ok (.arr l.reverse)
              | _ => .error ()
          match rev with
          | .error _ => (encodingObj, vgObj)
          | .ok sv =>
            let eo := objSetL encodingObj "sort" sv
            if channel = "color" && (jsGetProp vgObj "mark" == JVal.str "bar" ||
                jsGetProp vgObj "mark" == JVal.str "area") then
              let fname := match field with
                | some f => f.name
                | none => "undefined"
              let ordVal := jobj [("field", .str ("color_" ++ fname ++ "_sort_index"))]
              let encv := jsGetProp vgObj "encoding"
              let encBase := if jsTruthy encv then encv else jobj []
              match encBase with
              | .obj es => (eo, setTopProp vgObj "encoding" (.obj (es.set "order" ordVal)))
              | _ => (eo, vgObj)
            else (eo, vgObj)
  else (encodingObj, vgObj)

/-- The `// Handle stacking` block: `'layered'` maps to `null`. -/
def stackStep (encoding : EncodingItem) (encodingObj : List (String × JVal)) :
    List (String × JVal) :=
  if jsTruthyStr encoding.stack then
    objSetL encodingObj "stack"
      (if encoding.stack == some "layered" then .null else .str (encoding.stack.getD ""))
  else encodingObj

/-- The `// Handle color schemes` block: write the scheme into an existing
`scale` member or create one. -/
def schemeStep (encoding : EncodingItem) (encodingObj : List (String × JVal)) :
    List (String × JVal) :=
  if jsTruthyStr encoding.scheme then
    if objHasL encodingObj "scale" then
      setNestedL encodingObj "scale" "scheme" (.str (encoding.scheme.getD ""))
    else
      objSetL encodingObj "scale" (jobj [("scheme", .str (encoding.scheme.getD ""))])
  else encodingObj

/-- The per-channel encoding-resolution part of the `assembleVegaChart`
loop body (everything before the template-path application): builds the
`encodingObj` for one channel and returns it together with the chart
object, which the explicit-sort-list branch may extend with a draw-order
encoding. -/
def buildEncodingObj (P : JsPrims) (chartType : String) (aggrPreprocessed : Bool)
    (conceptShelfItems : List FieldItem) (workingTable : List JVal)
    (vgObj : JVal) (channel : String) (encoding : EncodingItem) :
    List (String × JVal) × JVal :=
  let encodingObj : List (String × JVal) := []
  let encodingObj := if channel = "radius" then
      objSetL encodingObj "scale" (jobj [("type", .str "sqrt"), ("zero", .bool true)])
    else encodingObj
  let field := if jsTruthyStr encoding.fieldID then
      conceptShelfItems.find? (fun f => some f.id = encoding.fieldID)
    else none
  let encodingObj :=
    if field.isNone && encoding.aggregate == some "count" && aggrPreprocessed then
      objSetL (objSetL (objSetL encodingObj "field" (.str "_count"))
        "title" (.str "Count")) "type" (.str "quantitative")
    else encodingObj
  let encodingObj := match field with
    | none => encodingObj
    | some f =>
      fieldStep P chartType aggrPreprocessed workingTable channel encoding f encodingObj
  let sorted := sortStep P encoding channel field encodingObj vgObj
  let encodingObj := schemeStep encoding (stackStep encoding sorted.1)
  (encodingObj, sorted.2)

/-- One iteration of the channel loop of `assembleVegaChart`: resolve the
encoding, then, when the resolved object is non-empty and the template
registers paths for the channel, write it at every path (overwriting a
string placeholder with the field name, merging into anything else). -/
def processChannel (P : JsPrims) (chartType : String) (aggrPreprocessed : Bool)
    (conceptShelfItems : List FieldItem) (workingTable : List JVal)
    (paths : List (String × PathSpec)) (vgObj : JVal)
    (channel : String) (encoding : EncodingItem) : Except String JVal :=
  let built := buildEncodingObj P chartType aggrPreprocessed conceptShelfItems
    workingTable vgObj channel encoding
  let encodingObj := built.1
  let vgObj := built.2
  if encodingObj.isEmpty then .ok vgObj
  else
    match paths.lookup channel with
    | none => .ok vgObj
    | some pathObj =>
      pathObj.toPathList.foldlM (fun vg path =>
        modifyAtPath vg path (fun cur =>
          match cur with
          | .str _ => .ok (objGetL encodingObj "field")
          | _ =>
            let prebuiltEntries := if jsTruthy cur then jsEntriesOf cur else []
            .ok (.obj (objFromEntries (prebuiltEntries ++ encodingObj))))) vgObj

/-- The facet-collapse step of `assembleVegaChart`:
`if (vgObj.encoding?.column && !vgObj.encoding?.row)` move the column
encoding to `facet` with a fixed `columns: 6` and delete `column`. Strict
JS throws when the column value is a truthy primitive (`facet.columns = 6`
on a non-object), modelled by the error branch. -/
def applyFacet (vgObj : JVal) : Except String JVal :=
  let encv := jsGetProp vgObj "encoding"
  let col := match encv with
    | .null => JVal.undef
    | .undef => JVal.undef
    | v => jsGetProp v "column"
  let row := match encv with
    | .null => JVal.undef
    | .undef => JVal.undef
    | v => jsGetProp v "row"
  if jsTruthy col && !jsTruthy row then
    match encv, col with
    | .obj es, .obj colEs =>
      let es1 := es.set "facet" (.obj (colEs.set "columns" (.num 6)))
      .ok (setTopProp vgObj "encoding" (.obj (es1.erase "column")))
    | _, _ => .error "TypeError: cannot set properties of a primitive"
  else .ok vgObj

/-- The temporal-coercion pass over one cloned row:
`r[k] = String(r[k])` for every key that names a date-typed or
`Year`-annotated concept. -/
def coerceTemporalRow (conceptShelfItems : List FieldItem) (r : JVal) : JVal :=
  let keys := match r with
    | .obj es => es.toList.map Prod.fst
    | _ => ([] : List String)
  let temporalKeys := keys.filter (fun k =>
    conceptShelfItems.any (fun concept =>
      concept.name = k &&
        (concept.type == DataType.date || concept.semanticType == some "Year")))
  temporalKeys.foldl (fun row k =>
    match row with
    | .obj es => .obj (es.set k (.str (jsToString ((es.lookup k).getD .undef))))
    | v => v) r

/-- `assembleVegaChart` from the chart utilities. `structuredClone` calls
are the identity here (values are immutable in the embedding, and the
clones sever exactly the sharing that could otherwise leak a mutation).
The excess-nominal-cardinality loop only emits console warnings and is not
modelled; `maxNominalValues` is kept in the signature. -/
def assembleVegaChart (P : JsPrims) (chartType : String) (encodingMap : EncodingMap)
    (conceptShelfItems : List FieldItem) (workingTable : List JVal)
    (maxNominalValues : Nat) (aggrPreprocessed : Bool) :
    Except String (String × JVal) :=
  if chartType = "Table" then .ok ("Table", .undef)
  else
    match getChartTemplate P chartType with
    | none => .error ("Chart template not found for type: " ++ chartType)
    | some chartTemplate => do
      let vgObj := chartTemplate.template
      let vgObj ← encodingMap.foldlM (fun vg ce =>
        processChannel P chartType aggrPreprocessed conceptShelfItems workingTable
          chartTemplate.paths vg ce.1 ce.2) vgObj
      let vgObj ← applyFacet vgObj
      let vgObj ← match chartTemplate.postProcessor with
        | some pp => pp vgObj workingTable
        | none => pure vgObj
      let values := workingTable.map (coerceTemporalRow conceptShelfItems)
      let _ := maxNominalValues
      let vgObj := setTopProp vgObj "data" (jobj [("values", jarr values)])
      .ok (chartType, vgObj)

/-! ## Thumbnail down-sampling (ChartRecBox) -/

/-- The in-place swap of `getRandomSubarray` (out-of-range indices, which
the seeded random in `[0,1)` never produces, leave the list unchanged). -/
def listSwap (l : List α) (i j : Nat) : List α :=
  match l.get? i, l.get? j with
  | some a, some b => (l.set i b).set j a
  | _, _ => l

/-- `getRandomSubarray` from the thumbnail renderer. `frac s` models
`getRandom(s) = Math.sin(s) * 10000 - Math.floor(Math.sin(s) * 10000)`, a
fixed mathematical function of the seed `s` (no process randomness); the
loop visits `i = arr.length - 1, …, 0` and swaps index
`Math.floor((i + 1) * frac(233 * i + 888))` with `i`, then keeps the first
`size` elements. -/
def getRandomSubarray (frac : Nat → ℚ) (arr : List α) (size : Nat) : List α :=
  let n := arr.length
  let shuffled := (List.range n).reverse.foldl (fun (sh : List α) (i : Nat) =>
    let index := (Int.floor (((i : ℚ) + 1) * frac (233 * i + 888))).toNat
    listSwap sh index i) arr
  shuffled.take size

/-- The caller's guard in the thumbnail renderer: rows are replaced by
`getRandomSubarray(values, 5000)` only when more than 5000 are present. -/
def downsampleForThumbnail (frac : Nat → ℚ) (values : List α) : List α :=
  if values.length > 5000 then getRandomSubarray frac values 5000 else values

/-! ## Redux store slice (hooks.ts) -/

/-- `Chart` from `componentTypes.ts` (presentational `title`, `description`,
`width`, `height` omitted). -/
structure Chart where
  id : String
  chartType : String
  encodingMap : EncodingMap
  tableRef : String
  saved : Bool
  source : String
deriving DecidableEq

/-- `Trigger` from `componentTypes.ts`. -/
structure Trigger where
  tableId : String
  sourceTableIds : List String
  chart : Option Chart := none
  instruction : String
  resultTableId : String
deriving DecidableEq

/-- The `derive` member of `DictTable` (the opaque LLM `dialog` log
omitted). -/
structure TableDerive where
  source : List String
  code : String
  codeExpl : String
  trigger : Trigger
deriving DecidableEq

/-- The `virtual` member of `DictTable`. -/
structure VirtualTable where
  tableId : String
  rowCount : Nat
deriving DecidableEq

/-- `DictTable` from `componentTypes.ts`. -/
structure DictTable where
  id : String
  displayId : String
  names : List String
  types : List DataType
  rows : List JVal
  derive : Option TableDerive := none
  virtual : Option VirtualTable := none
  anchored : Bool
  explorativeQuestions : List String := []
deriving DecidableEq

/-- The slice state, restricted to the members the embedded reducers read
or write (`models`, `messages`, configuration and pane sizes are never
touched by them). -/
structure DataFormulatorState where
  tables : List DictTable
  charts : List Chart
  conceptShelfItems : List FieldItem
  focusedTableId : Option String := none
  focusedChartId : Option String := none
  chartSynthesisInProgress : List String := []
deriving DecidableEq

/-- The fallback table literal of `getDataTable`. -/
def defaultDataTable : DictTable :=
  { id := "default", displayId := "default", names := [], types := [], rows := [],
    anchored := false, explorativeQuestions := [] }

/-- `getDataTable` from `hooks.ts`:
`tables.find(t => t.id === chart.tableRef) || tables[0] || {…default…}`. -/
def getDataTable (chart : Chart) (tables : List DictTable) (_allCharts : List Chart)
    (_conceptShelfItems : List FieldItem) : DictTable :=
  match tables.find? (fun t => t.id = chart.tableRef) with
  | some t => t
  | none =>
    match tables.head? with
    | some t => t
    | none => defaultDataTable

/-- `getUnrefedDerivedTableIds`: ids of derived tables not referenced (via
`getDataTable`) by any chart. -/
def getUnrefedDerivedTableIds (state : DataFormulatorState) : List String :=
  let allCharts := state.charts
  let chartRefedTables := (allCharts.map (fun chart =>
    getDataTable chart state.tables allCharts state.conceptShelfItems)).map (·.id)
  (state.tables.filter (fun table =>
    table.derive.isSome && !chartRefedTables.contains table.id)).map (·.id)

/-- The unreferenced-table removal pass ending `deleteChartsRoutine`
(its last five lines): drop every non-anchored table whose id is
unreferenced. -/
def removeUnrefedTables (state : DataFormulatorState) : DataFormulatorState :=
  let unrefedDerivedTableIds := getUnrefedDerivedTableIds state
  let tableIdsToDelete := (state.tables.filter (fun t =>
    !t.anchored && unrefedDerivedTableIds.contains t.id)).map (·.id)
  { state with tables := state.tables.filter (fun t => !tableIdsToDelete.contains t.id) }

/-- `deleteChartsRoutine` from `hooks.ts`: drop the charts, re-aim the
focus if it pointed at a deleted chart, prune the synthesis-progress list,
then run the unreferenced-table removal pass. -/
def deleteChartsRoutine (state : DataFormulatorState) (chartIds : List String) :
    DataFormulatorState :=
  let charts := state.charts.filter (fun c => !chartIds.contains c.id)
  let refocus : Option String × Option String :=
    match state.focusedChartId with
    | some f =>
      if chartIds.contains f then
        let newFocused := charts.head?.map (·.id)
        (newFocused, (charts.find? (fun c => some c.id = newFocused)).map (·.tableRef))
      else (state.focusedChartId, state.focusedTableId)
    | none => (state.focusedChartId, state.focusedTableId)
  let state1 := { state with
    charts := charts,
    focusedChartId := refocus.1,
    focusedTableId := refocus.2,
    chartSynthesisInProgress :=
      state.chartSynthesisInProgress.filter (fun s => !chartIds.contains s) }
  removeUnrefedTables state1

/-- The `deleteChart` reducer: `deleteChartsRoutine(state, [id])`. -/
def deleteChart (state : DataFormulatorState) (chartId : String) : DataFormulatorState :=
  deleteChartsRoutine state [chartId]

/-- The `deleteTable` reducer: drop the table, cascade-delete the charts
that referenced it, then drop the concept-shelf fields bound to it. -/
def deleteTable (state : DataFormulatorState) (tableId : String) : DataFormulatorState :=
  let state1 := { state with tables := state.tables.filter (fun t => t.id ≠ tableId) }
  let chartsToDelete := state1.charts.filter (fun c => c.tableRef = tableId)
  let state2 := deleteChartsRoutine state1 (chartsToDelete.map (·.id))
  { state2 with conceptShelfItems :=
      state2.conceptShelfItems.filter (fun item => item.tableRef ≠ tableId) }

/-! ## Sample environment primitives

Concrete instances of the parametrized JS primitives, used to evaluate the
embedding at the concrete inputs of witnesses and counterexamples. Every
universal theorem quantifies over the primitives; these choices only matter
where a concrete execution actually consults them, and they agree with the
browser behavior there. -/

/-- A concrete `JsPrims`: numbers and booleans coerce numerically, nothing
parses as a date, `JSON.parse` always throws. The counterexample and
witness inputs below never reach a spot where these choices diverge from
the browser. -/
def samplePrims : JsPrims :=
  { isNum := fun v => match v with
      | .num _ => true
      | .bool _ => true
      | _ => false,
    isDate := fun _ => false,
    jsonParse := fun _ => none,
    toNumber := fun v => match v with
      | .num q => .num q
      | .bool b => .num (if b then 1 else 0)
      | .null => .num 0
      | _ => .nan }

/-! ## C5 — type inference on empty or all-null input -/

/-- C5 (counterexample): the claim says an empty input yields the concrete
type `'string'` and that inference never returns `'auto'`; but on the empty
array both `inferDataType` (viewUtils.ts) and `inferTypeFromValueArray`
(componentTypes.ts) return `'auto'`, and the display-type variant `getDType`
returns `'nominal'` — none returns `'string'`. -/
theorem inferType_empty_counterexample :
    inferDataType samplePrims.isNum samplePrims.isDate [] = DataType.auto ∧
    inferTypeFromValueArray samplePrims.isNum samplePrims.isDate [] = DataType.auto ∧
    getDType samplePrims.isNum samplePrims.isDate DataType.auto [] = "nominal" ∧
    DataType.auto ≠ DataType.string :=
  ⟨rfl, rfl, rfl, by decide⟩

/-- C5 (amended): for every input sequence that is empty or contains only
null/undefined/empty-string values, `inferDataType` and
`inferTypeFromValueArray` return `'auto'` (not `'string'`), and `getDType`
with declared type `'auto'` returns the display type `'nominal'`. -/
theorem inferType_empty_amended (isNum isDate : JVal → Bool) (values : List JVal)
    (h : (values.filter jsNonNull).isEmpty = true) :
    inferDataType isNum isDate values = DataType.auto ∧
    inferTypeFromValueArray isNum isDate values = DataType.auto ∧
    getDType isNum isDate DataType.auto values = "nominal" := by
  unfold inferDataType inferTypeFromValueArray getDType
  cases values with
  | nil => simp
  | cons v tl => simp [h]

/-- C5 witness: the amended statement at the concrete all-null input
`[null, '']`. -/
theorem inferType_empty_amended_witness :
    inferDataType samplePrims.isNum samplePrims.isDate [.null, .str ""] = DataType.auto ∧
    inferTypeFromValueArray samplePrims.isNum samplePrims.isDate [.null, .str ""] =
      DataType.auto ∧
    getDType samplePrims.isNum samplePrims.isDate DataType.auto [.null, .str ""] =
      "nominal" :=
  inferType_empty_amended samplePrims.isNum samplePrims.isDate [.null, .str ""] (by rfl)

/-! ## C9 — thumbnail down-sampling is deterministic and bounded -/

/-- `listSwap` preserves length. -/
theorem listSwap_length (l : List α) (i j : Nat) : (listSwap l i j).length = l.length := by
  unfold listSwap
  cases hi : l.get? i with
  | none => rfl
  | some a =>
    cases hj : l.get? j with
    | none => rfl
    | some b => simp

/-- A fold of length-preserving steps preserves length. -/
theorem foldl_length_invariant (step : List α → Nat → List α)
    (hstep : ∀ s i, (step s i).length = s.length) :
    ∀ (l : List Nat) (s : List α), (l.foldl step s).length = s.length := by
  intro l
  induction l with
  | nil => intro s; rfl
  | cons x xs ih => intro s; rw [List.foldl_cons, ih, hstep]

/-- C9: the thumbnail down-sampling step is deterministic and bounded. Its
randomness source is the fixed per-index seed formula `233 * i + 888` fed to
a fixed mathematical function (`Math.sin`-derived, modelled by `frac`), not
a stateful generator, so the result is a function of the row list alone:
two applications to the same list are equal. The result never exceeds 5000
rows, and a list of at most 5000 rows is passed through unchanged. -/
theorem downsampleForThumbnail_deterministic_bounded (frac : Nat → ℚ)
    (values : List α) :
    downsampleForThumbnail frac values = downsampleForThumbnail frac values ∧
    (downsampleForThumbnail frac values).length ≤ 5000 ∧
    (values.length ≤ 5000 → downsampleForThumbnail frac values = values) := by
  refine ⟨rfl, ?_, ?_⟩
  · unfold downsampleForThumbnail getRandomSubarray
    by_cases h : values.length > 5000
    · simp only [h, if_true]
      rw [List.length_take]
      exact min_le_left _ _
    · simp only [h, if_false]
      omega
  · intro h
    unfold downsampleForThumbnail
    have : ¬ (values.length > 5000) := by omega
    simp [this]

/-! ## C10 — deleteTable removes exactly the fields bound to the table -/

/-- C10: `deleteTable` leaves the concept shelf equal to its previous value
filtered by `tableRef ≠ tableId`: every field bound to the deleted table is
removed, every other field survives unchanged and in order (the
chart-cascade part of the reducer never touches the concept shelf). -/
theorem deleteTable_conceptShelf (s : DataFormulatorState) (tableId : String) :
    (deleteTable s tableId).conceptShelfItems =
      s.conceptShelfItems.filter (fun item => item.tableRef ≠ tableId) := by
  rfl

/-! ## C6 — unknown chart type is a hard failure -/

/-- C6: for every chart type other than the `'Table'` sentinel that the
registry does not know, `assembleVegaChart` produces no specification: it
throws (`Except.error`) the `Chart template not found` error instead of
assembling against a missing template. -/
theorem assembleVegaChart_unknown_type_fails (P : JsPrims) (chartType : String)
    (encodingMap : EncodingMap) (conceptShelfItems : List FieldItem)
    (workingTable : List JVal) (maxNominalValues : Nat) (aggrPreprocessed : Bool)
    (hTable : chartType ≠ "Table")
    (hMiss : getChartTemplate P chartType = none) :
    assembleVegaChart P chartType encodingMap conceptShelfItems workingTable
        maxNominalValues aggrPreprocessed =
      .error ("Chart template not found for type: " ++ chartType) := by
  unfold assembleVegaChart
  simp [hTable, hMiss]

/-- C6 witness: the concrete unknown chart type `"Diverging Bar"`. -/
theorem assembleVegaChart_unknown_type_fails_witness :
    assembleVegaChart samplePrims "Diverging Bar" [] [] [] 68 false =
      .error ("Chart template not found for type: " ++ "Diverging Bar") :=
  assembleVegaChart_unknown_type_fails samplePrims "Diverging Bar" [] [] [] 68 false
    (by decide) (by rfl)

/-! ## C7 — assembly is idempotent and mutates none of its inputs -/

/-- `assembleVegaChart` with the post-call values of its caller-visible
shared inputs made explicit: the registry (whose template the source
deep-clones before writing), the concept-shelf field list (only read) and
the working rows (deep-cloned before the temporal coercion). The returned
triple is what the caller observes in those structures after the call. -/
def assembleVegaChartTracked (P : JsPrims) (chartType : String)
    (encodingMap : EncodingMap) (conceptShelfItems : List FieldItem)
    (workingTable : List JVal) (maxNominalValues : Nat) (aggrPreprocessed : Bool) :
    (List (String × List ChartTemplate) × List FieldItem × List JVal) ×
      Except String (String × JVal) :=
  ((CHART_TEMPLATES P, conceptShelfItems, workingTable),
   assembleVegaChart P chartType encodingMap conceptShelfItems workingTable
     maxNominalValues aggrPreprocessed)

/-- C7: assembling twice yields structurally identical results. The first
call leaves the registry, the field list and the input rows exactly as they
were (first conjunct), so a second call on the post-call state returns the
same state and specification (second conjunct). -/
theorem assembleVegaChart_idempotent (P : JsPrims) (chartType : String)
    (encodingMap : EncodingMap) (conceptShelfItems : List FieldItem)
    (workingTable : List JVal) (maxNominalValues : Nat) (aggrPreprocessed : Bool) :
    (assembleVegaChartTracked P chartType encodingMap conceptShelfItems workingTable
        maxNominalValues aggrPreprocessed).1 =
      (CHART_TEMPLATES P, conceptShelfItems, workingTable) ∧
    assembleVegaChartTracked P chartType encodingMap
        (assembleVegaChartTracked P chartType encodingMap conceptShelfItems workingTable
          maxNominalValues aggrPreprocessed).1.2.1
        (assembleVegaChartTracked P chartType encodingMap conceptShelfItems workingTable
          maxNominalValues aggrPreprocessed).1.2.2
        maxNominalValues aggrPreprocessed =
      assembleVegaChartTracked P chartType encodingMap conceptShelfItems workingTable
        maxNominalValues aggrPreprocessed :=
  ⟨rfl, rfl⟩

/-! ## C1 — an encoding with no bound field id -/

/-- C1 (counterexample): the claim says a channel whose encoding binds no
field contributes nothing regardless of its other settings. But assembling
a Bar Chart whose `x` encoding has no field id and only
`sortOrder: 'ascending'` writes `{sort: 'ascending'}` into the template at
the `x` path — the channel does contribute. -/
theorem emptyFieldEncoding_counterexample :
    (match assembleVegaChart samplePrims "Bar Chart"
        [("x", { sortOrder := some "ascending" })] [] [] 68 false with
     | .ok p => jsGetProp (jsGetProp p.2 "encoding") "x"
     | .error _ => JVal.null) = jobj [("sort", .str "ascending")] ∧
    jobj [("sort", .str "ascending")] ≠ JVal.undef := by
  exact ⟨by decide, by decide⟩

/-- C1 (amended): a channel whose encoding binds no field id contributes
nothing to assembly — provided the encoding also carries no sort order, no
sort-by, no stack, no color scheme, the channel is not `'radius'` (whose
processing pre-seeds a sqrt scale), and it is not the
count-aggregate-with-preprocessed-rows case; under those conditions the
resolved object stays empty and the chart object is returned unchanged. -/
theorem emptyChannel_contributes_nothing (P : JsPrims) (chartType : String)
    (aggrPreprocessed : Bool) (conceptShelfItems : List FieldItem)
    (workingTable : List JVal) (paths : List (String × PathSpec)) (vgObj : JVal)
    (channel : String) (e : EncodingItem)
    (hfid : jsTruthyStr e.fieldID = false)
    (hsb : jsTruthyStr e.sortBy = false)
    (hso : jsTruthyStr e.sortOrder = false)
    (hst : jsTruthyStr e.stack = false)
    (hsc : jsTruthyStr e.scheme = false)
    (hch : channel ≠ "radius")
    (hag : (e.aggregate == some "count" && aggrPreprocessed) = false) :
    processChannel P chartType aggrPreprocessed conceptShelfItems workingTable paths
      vgObj channel e = .ok vgObj := by
  unfold processChannel buildEncodingObj sortStep stackStep schemeStep
  simp [hfid, hsb, hso, hst, hsc, hch, hag]

/-- C1 witness: the amended statement at a concrete empty encoding on the
Bar Chart `x` channel. -/
theorem emptyChannel_contributes_nothing_witness :
    processChannel samplePrims "Bar Chart" false [] []
      [("x", PathSpec.single (encPath "x"))]
      (jobj [("mark", .str "bar"), ("encoding", jobj [])]) "x" {} =
      .ok (jobj [("mark", .str "bar"), ("encoding", jobj [])]) :=
  emptyChannel_contributes_nothing samplePrims "Bar Chart" false [] []
    [("x", PathSpec.single (encPath "x"))]
    (jobj [("mark", .str "bar"), ("encoding", jobj [])]) "x" {}
    rfl rfl rfl rfl rfl (by decide) rfl

/-! ## C2 — row/column facet collapse -/

/-- C2 (counterexample): the claim says that when both `row` and `column`
are resolved against a single-faceted template, the assembler collapses
them into one combined `facet` grid. But assembling a Bar Chart with both
facet channels bound emits the two independent `row` and `column`
directives and no `facet` entry: the collapse condition
(`encoding.column && !encoding.row`) never fires when both are present. -/
theorem bothFacets_counterexample :
    (match assembleVegaChart samplePrims "Bar Chart"
        [("row", { fieldID := some "f-r" }), ("column", { fieldID := some "f-c" })]
        [{ id := "f-r", name := "R", type := .string, source := "original",
           domain := [], tableRef := "t1" },
         { id := "f-c", name := "C", type := .string, source := "original",
           domain := [], tableRef := "t1" }]
        [] 68 false with
     | .ok p => jsGetProp p.2 "encoding"
     | .error _ => JVal.null) =
      jobj [("row", jobj [("field", .str "R"), ("type", .str "nominal")]),
            ("column", jobj [("field", .str "C"), ("type", .str "nominal")])] ∧
    jsGetProp (jobj [("row", jobj [("field", .str "R"), ("type", .str "nominal")]),
            ("column", jobj [("field", .str "C"), ("type", .str "nominal")])])
        "facet" = JVal.undef ∧
    jsTruthy (jsGetProp (jobj [("row", jobj [("field", .str "R"), ("type", .str "nominal")]),
            ("column", jobj [("field", .str "C"), ("type", .str "nominal")])])
        "row") = true ∧
    jsTruthy (jsGetProp (jobj [("row", jobj [("field", .str "R"), ("type", .str "nominal")]),
            ("column", jobj [("field", .str "C"), ("type", .str "nominal")])])
        "column") = true := by
  exact ⟨by decide, by decide, by decide, by decide⟩

/-- C2 (amended): the combined-facet collapse fires exactly when, after
path-filling, the chart object's `encoding.column` is set and
`encoding.row` is not. When both facet channels are resolved the step
leaves the specification unchanged (two independent directives remain);
when only `column` is set, its object becomes the combined `facet` entry
with the fixed `columns: 6` grid width and the `column` entry is deleted. -/
theorem facetCollapse_fires_iff (vgObj : JVal) (encEs : JEntries)
    (henc : jsGetProp vgObj "encoding" = .obj encEs) :
    (jsTruthy ((encEs.lookup "column").getD .undef) = true →
      jsTruthy ((encEs.lookup "row").getD .undef) = true →
      applyFacet vgObj = .ok vgObj) ∧
    (∀ colEs, encEs.lookup "column" = some (.obj colEs) →
      jsTruthy ((encEs.lookup "row").getD .undef) = false →
      applyFacet vgObj = .ok (setTopProp vgObj "encoding"
        (.obj ((encEs.set "facet" (.obj (colEs.set "columns" (.num 6)))).erase "column")))) := by
  constructor
  · intro hcol hrow
    unfold applyFacet
    rw [henc]
    simp [jsGetProp, hrow]
  · intro colEs hcol hrow
    unfold applyFacet
    rw [henc]
    simp only [jsGetProp, hcol, Option.getD_some, hrow]
    simp [jsTruthy]

/-- C2 witness: the amended statement at a concrete chart object whose
encoding has a `column` entry and no `row`. -/
theorem facetCollapse_fires_iff_witness :
    (jsTruthy (((JEntries.ofList [("column", jobj [("field", .str "C")])]).lookup
        "column").getD .undef) = true →
      jsTruthy (((JEntries.ofList [("column", jobj [("field", .str "C")])]).lookup
        "row").getD .undef) = true →
      applyFacet (jobj [("encoding", jobj [("column", jobj [("field", .str "C")])])]) =
        .ok (jobj [("encoding", jobj [("column", jobj [("field", .str "C")])])])) ∧
    (∀ colEs, (JEntries.ofList [("column", jobj [("field", .str "C")])]).lookup
        "column" = some (.obj colEs) →
      jsTruthy (((JEntries.ofList [("column", jobj [("field", .str "C")])]).lookup
        "row").getD .undef) = false →
      applyFacet (jobj [("encoding", jobj [("column", jobj [("field", .str "C")])])]) =
        .ok (setTopProp (jobj [("encoding", jobj [("column", jobj [("field", .str "C")])])])
          "encoding"
          (.obj (((JEntries.ofList [("column", jobj [("field", .str "C")])]).set
            "facet" (.obj (colEs.set "columns" (.num 6)))).erase "column")))) :=
  facetCollapse_fires_iff
    (jobj [("encoding", jobj [("column", jobj [("field", .str "C")])])])
    (JEntries.ofList [("column", jobj [("field", .str "C")])]) rfl

/-! ## C4 — anchored tables and cascades -/

/-- In a state whose table ids are pairwise distinct, the
unreferenced-table removal pass keeps every anchored table. -/
theorem removeUnrefedTables_anchored (s : DataFormulatorState)
    (hnd : (s.tables.map DictTable.id).Nodup) (t : DictTable)
    (ht : t ∈ s.tables) (ha : t.anchored = true) :
    t ∈ (removeUnrefedTables s).tables := by
  unfold removeUnrefedTables
  rw [List.mem_filter]
  refine ⟨ht, ?_⟩
  rw [Bool.not_eq_eq_eq_not, Bool.not_true]
  rw [← Bool.not_eq_true]
  intro hcont
  have hmem := List.elem_iff.mp hcont
  obtain ⟨u, hu, hid⟩ := List.mem_map.mp hmem
  obtain ⟨huMem, huP⟩ := List.mem_filter.mp hu
  have huT : u = t := List.inj_on_of_nodup_map hnd huMem ht hid
  rw [huT, ha] at huP
  simp at huP

/-- The removal pass only drops tables. -/
theorem removeUnrefedTables_sublist (s : DataFormulatorState) :
    List.Sublist (removeUnrefedTables s).tables s.tables := by
  unfold removeUnrefedTables
  exact List.filter_sublist _

/-- One `deleteChartsRoutine` call keeps every anchored table when table
ids are pairwise distinct, and only drops tables. -/
theorem deleteChartsRoutine_anchored (s : DataFormulatorState) (ids : List String)
    (hnd : (s.tables.map DictTable.id).Nodup) (t : DictTable)
    (ht : t ∈ s.tables) (ha : t.anchored = true) :
    t ∈ (deleteChartsRoutine s ids).tables := by
  unfold deleteChartsRoutine
  apply removeUnrefedTables_anchored _ _ t _ ha
  · exact hnd
  · exact ht

/-- `deleteChartsRoutine` only drops tables. -/
theorem deleteChartsRoutine_tables_sublist (s : DataFormulatorState) (ids : List String) :
    List.Sublist (deleteChartsRoutine s ids).tables s.tables := by
  unfold deleteChartsRoutine
  exact removeUnrefedTables_sublist _

/-- C4 (amended): in every state whose table ids are pairwise distinct, an
anchored table survives every sequence of chart deletions (each deletion an
arbitrary `deleteChartsRoutine` call, covering the `deleteChart` and
`deleteChartById` reducers), regardless of how many charts reference it. -/
theorem anchored_never_removed (s : DataFormulatorState) (delss : List (List String))
    (t : DictTable) (hnd : (s.tables.map DictTable.id).Nodup)
    (ht : t ∈ s.tables) (ha : t.anchored = true) :
    t ∈ (delss.foldl deleteChartsRoutine s).tables := by
  induction delss generalizing s with
  | nil => exact ht
  | cons ids rest ih =>
    rw [List.foldl_cons]
    apply ih
    · exact ((deleteChartsRoutine_tables_sublist s ids).map DictTable.id).nodup hnd
    · exact deleteChartsRoutine_anchored s ids hnd t ht ha

/-- A trigger record shared by the concrete store states below. -/
def cxTrigger : Trigger :=
  { tableId := "root", sourceTableIds := ["root"], instruction := "derive t1",
    resultTableId := "t1" }

/-- A non-anchored derived table with id `t1`. -/
def cxDerivedTable : DictTable :=
  { id := "t1", displayId := "t1", names := [], types := [], rows := [],
    derive := some { source := ["root"], code := "", codeExpl := "", trigger := cxTrigger },
    anchored := false }

/-- An anchored table that shares the id `t1`. -/
def cxAnchoredTable : DictTable :=
  { id := "t1", displayId := "t1b", names := [], types := [], rows := [],
    anchored := true }

/-- A state holding two tables with the same id, one derived and
unreferenced, one anchored; no charts. -/
def dupIdState : DataFormulatorState :=
  { tables := [cxDerivedTable, cxAnchoredTable], charts := [], conceptShelfItems := [] }

/-- C4 (counterexample): as stated, the claim fails — deleting a chart (here
any chart id; none exists) from a state in which an anchored table shares
its id with an unreferenced derived table removes the anchored table too,
because the cascade deletes tables by id
(`tables.filter(t => !tableIdsToDelete.includes(t.id))`). -/
theorem anchored_removed_counterexample :
    (dupIdState.tables.map DictTable.anchored).contains true = true ∧
    (deleteChart dupIdState "c0").tables = [] := by
  exact ⟨by decide, by decide⟩

/-- An anchored root table with its own id. -/
def cxRootTable : DictTable :=
  { id := "root", displayId := "root", names := [], types := [], rows := [],
    anchored := true }

/-- A chart referencing the derived table `t1`. -/
def cxChart : Chart :=
  { id := "c1", chartType := "Bar Chart", encodingMap := [], tableRef := "t1",
    saved := false, source := "user" }

/-- A well-formed state: distinct table ids, a root and a derived table,
one chart on the derived table. -/
def wellFormedState : DataFormulatorState :=
  { tables := [cxRootTable, cxDerivedTable], charts := [cxChart], conceptShelfItems := [] }

/-- C4 witness: the amended statement at the concrete well-formed state,
deleting the only chart twice over. -/
theorem anchored_never_removed_witness :
    cxRootTable ∈ ((([["c1"], ["c1"]] : List (List String)).foldl
      deleteChartsRoutine wellFormedState)).tables :=
  anchored_never_removed wellFormedState [["c1"], ["c1"]] cxRootTable
    (by decide) (by decide) (by decide)

/-! ## C3 — cascade removal of unreferenced derived tables -/

/-- `find?` is unchanged by a filter that keeps every element the predicate
could select. -/
theorem find?_filter_of_imp (l : List α) (pred q : α → Bool)
    (h : ∀ x ∈ l, pred x = true → q x = true) :
    (l.filter q).find? pred = l.find? pred := by
  induction l with
  | nil => rfl
  | cons x xs ih =>
    have hxs : ∀ y ∈ xs, pred y = true → q y = true :=
      fun y hy => h y (List.mem_cons_of_mem _ hy)
    by_cases hp : pred x = true
    · have hq := h x (List.mem_cons_self x xs) hp
      rw [List.filter_cons_of_pos hq, List.find?_cons_of_pos _ hp,
        List.find?_cons_of_pos _ hp]
    · cases hq : q x
      · rw [List.filter_cons_of_neg (by simp [hq]), List.find?_cons_of_neg _ hp, ih hxs]
      · rw [List.filter_cons_of_pos hq, List.find?_cons_of_neg _ hp,
          List.find?_cons_of_neg _ hp, ih hxs]

/-- The id list the source calls `chartRefedTables`: the tables the charts
resolve to through `getDataTable`. -/
def chartRefedTableIds (s : DataFormulatorState) : List String :=
  (s.charts.map (fun chart =>
    getDataTable chart s.tables s.charts s.conceptShelfItems)).map (·.id)

/-- The `tableIdsToDelete` list of `deleteChartsRoutine`. -/
def tableIdsToDelete (s : DataFormulatorState) : List String :=
  (s.tables.filter (fun t =>
    !t.anchored && (getUnrefedDerivedTableIds s).contains t.id)).map (·.id)

/-- `getUnrefedDerivedTableIds`, restated through `chartRefedTableIds`. -/
theorem getUnrefedDerivedTableIds_eq (s : DataFormulatorState) :
    getUnrefedDerivedTableIds s =
      (s.tables.filter (fun table =>
        table.derive.isSome && !(chartRefedTableIds s).contains table.id)).map (·.id) := rfl

/-- The tables after the removal pass, restated through
`tableIdsToDelete`. -/
theorem removeUnrefedTables_tables (s : DataFormulatorState) :
    (removeUnrefedTables s).tables =
      s.tables.filter (fun t => !(tableIdsToDelete s).contains t.id) := rfl

/-- The removal pass leaves the chart list unchanged. -/
theorem removeUnrefedTables_charts (s : DataFormulatorState) :
    (removeUnrefedTables s).charts = s.charts := rfl

/-- The removal pass leaves the concept shelf unchanged. -/
theorem removeUnrefedTables_conceptShelf (s : DataFormulatorState) :
    (removeUnrefedTables s).conceptShelfItems = s.conceptShelfItems := rfl

/-- An id scheduled for deletion is never one of the chart-referenced ids
(the unreferenced filter excludes them). -/
theorem mem_tableIdsToDelete_not_refed (s : DataFormulatorState) (x : String)
    (hx : x ∈ tableIdsToDelete s) : x ∉ chartRefedTableIds s := by
  obtain ⟨u, hu, huid⟩ := List.mem_map.mp hx
  obtain ⟨_, huP⟩ := List.mem_filter.mp hu
  obtain ⟨_, hcont⟩ := Bool.and_eq_true_iff.mp huP
  have hun : u.id ∈ getUnrefedDerivedTableIds s := List.elem_iff.mp hcont
  rw [getUnrefedDerivedTableIds_eq] at hun
  obtain ⟨v, hv, hvid⟩ := List.mem_map.mp hun
  obtain ⟨_, hvP⟩ := List.mem_filter.mp hv
  obtain ⟨_, hvnot⟩ := Bool.and_eq_true_iff.mp hvP
  intro hmem
  rw [← huid, ← hvid] at hmem
  rw [Bool.not_eq_true'] at hvnot
  have hc : (chartRefedTableIds s).contains v.id = true := List.elem_iff.mpr hmem
  rw [hvnot] at hc
  exact Bool.false_ne_true hc

/-- `getDataTable` resolves a chart to the same table before and after the
unreferenced-table removal pass: a resolved table is referenced, hence kept,
and the `tables[0]` fallback target of a dangling chart is likewise
referenced, hence still first. -/
theorem getDataTable_removeUnrefed (s : DataFormulatorState) (c : Chart)
    (hc : c ∈ s.charts) :
    getDataTable c (removeUnrefedTables s).tables s.charts s.conceptShelfItems =
      getDataTable c s.tables s.charts s.conceptShelfItems := by
  rw [removeUnrefedTables_tables]
  have himg : (getDataTable c s.tables s.charts s.conceptShelfItems).id ∈
      chartRefedTableIds s := by
    unfold chartRefedTableIds
    exact List.mem_map.mpr ⟨_, List.mem_map.mpr ⟨c, hc, rfl⟩, rfl⟩
  cases hfind : s.tables.find? (fun t => t.id = c.tableRef) with
  | some t0 =>
    have ht0id : t0.id = c.tableRef := by
      have hpt0 := List.find?_some hfind
      simpa using hpt0
    have ht0 : getDataTable c s.tables s.charts s.conceptShelfItems = t0 := by
      unfold getDataTable
      rw [hfind]
    have hrefed : c.tableRef ∈ chartRefedTableIds s := by
      rw [← ht0id]
      rw [ht0] at himg
      exact himg
    have hkeep : ∀ x ∈ s.tables, (decide (x.id = c.tableRef)) = true →
        (!(tableIdsToDelete s).contains x.id) = true := by
      intro x _ hxp
      have hxid : x.id = c.tableRef := of_decide_eq_true hxp
      rw [Bool.not_eq_true']
      cases hcont : (tableIdsToDelete s).contains x.id with
      | false => rfl
      | true =>
        have hxmem : x.id ∈ tableIdsToDelete s := List.elem_iff.mp hcont
        have := mem_tableIdsToDelete_not_refed s x.id hxmem
        rw [hxid] at this
        exact absurd hrefed this
    unfold getDataTable
    rw [find?_filter_of_imp _ _ _ hkeep, hfind]
  | none =>
    have hvac : ∀ x ∈ s.tables, (decide (x.id = c.tableRef)) = true →
        (!(tableIdsToDelete s).contains x.id) = true := by
      intro x hx hxp
      have := List.find?_eq_none.mp hfind x hx
      exact absurd hxp this
    unfold getDataTable
    rw [find?_filter_of_imp _ _ _ hvac, hfind]
    cases hst : s.tables with
    | nil => rfl
    | cons t0 rest =>
      have ht0 : getDataTable c s.tables s.charts s.conceptShelfItems = t0 := by
        unfold getDataTable
        rw [hfind, hst]
        rfl
      have ht0mem : t0.id ∈ chartRefedTableIds s := by
        rw [ht0] at himg
        exact himg
      have hp : (!(tableIdsToDelete s).contains t0.id) = true := by
        rw [Bool.not_eq_true']
        cases hcont : (tableIdsToDelete s).contains t0.id with
        | false => rfl
        | true =>
          have hmem : t0.id ∈ tableIdsToDelete s := List.elem_iff.mp hcont
          exact absurd ht0mem (mem_tableIdsToDelete_not_refed s t0.id hmem)
      have hpmem : t0.id ∉ tableIdsToDelete s := by
        rw [Bool.not_eq_true'] at hp
        intro hm
        have hc2 : (tableIdsToDelete s).contains t0.id = true := List.elem_iff.mpr hm
        rw [hp] at hc2
        exact Bool.false_ne_true hc2
      simp [List.filter_cons, hpmem]

/-- The chart-referenced ids are unchanged by the removal pass. -/
theorem chartRefedTableIds_removeUnrefed (s : DataFormulatorState) :
    chartRefedTableIds (removeUnrefedTables s) = chartRefedTableIds s := by
  unfold chartRefedTableIds
  rw [removeUnrefedTables_charts, removeUnrefedTables_conceptShelf]
  congr 1
  apply List.map_congr_left
  intro c hc
  exact getDataTable_removeUnrefed s c hc

/-- The unreferenced-table removal pass is idempotent: the single pass the
source runs already reaches the fixpoint of "repeat until no further table
becomes unreferenced" — removal can only be caused by chart references,
which the pass does not change. -/
theorem removeUnrefedTables_idem (s : DataFormulatorState) :
    removeUnrefedTables (removeUnrefedTables s) = removeUnrefedTables s := by
  have key : ∀ t ∈ (removeUnrefedTables s).tables,
      (!(tableIdsToDelete (removeUnrefedTables s)).contains t.id) = true := by
    intro t ht
    rw [Bool.not_eq_true']
    cases hcont : (tableIdsToDelete (removeUnrefedTables s)).contains t.id with
    | false => rfl
    | true =>
      exfalso
      have hx : t.id ∈ tableIdsToDelete (removeUnrefedTables s) := List.elem_iff.mp hcont
      obtain ⟨u, hu, huid⟩ := List.mem_map.mp hx
      obtain ⟨huMem1, huP⟩ := List.mem_filter.mp hu
      obtain ⟨hanch, hcontu⟩ := Bool.and_eq_true_iff.mp huP
      have hun : u.id ∈ getUnrefedDerivedTableIds (removeUnrefedTables s) :=
        List.elem_iff.mp hcontu
      rw [getUnrefedDerivedTableIds_eq, chartRefedTableIds_removeUnrefed] at hun
      obtain ⟨v, hv, hvid⟩ := List.mem_map.mp hun
      obtain ⟨hvMem1, hvP⟩ := List.mem_filter.mp hv
      obtain ⟨hvder, hvnot⟩ := Bool.and_eq_true_iff.mp hvP
      have hvMem : v ∈ s.tables := (removeUnrefedTables_sublist s).subset hvMem1
      have huMem : u ∈ s.tables := (removeUnrefedTables_sublist s).subset huMem1
      have hvun : v.id ∈ getUnrefedDerivedTableIds s := by
        rw [getUnrefedDerivedTableIds_eq]
        refine List.mem_map.mpr ⟨v, List.mem_filter.mpr ⟨hvMem, ?_⟩, rfl⟩
        rw [Bool.and_eq_true_iff]
        exact ⟨hvder, hvnot⟩
      have hud : u.id ∈ tableIdsToDelete s := by
        refine List.mem_map.mpr ⟨u, List.mem_filter.mpr ⟨huMem, ?_⟩, rfl⟩
        rw [Bool.and_eq_true_iff]
        refine ⟨hanch, ?_⟩
        apply List.elem_iff.mpr
        rw [← hvid]
        exact hvun
      rw [removeUnrefedTables_tables] at huMem1
      obtain ⟨_, hup⟩ := List.mem_filter.mp huMem1
      rw [Bool.not_eq_true'] at hup
      have hc2 : (tableIdsToDelete s).contains u.id = true := List.elem_iff.mpr hud
      rw [hup] at hc2
      exact Bool.false_ne_true hc2
  have htab : (removeUnrefedTables s).tables.filter
      (fun t => !(tableIdsToDelete (removeUnrefedTables s)).contains t.id) =
      (removeUnrefedTables s).tables := List.filter_eq_self.mpr key
  have h2 : removeUnrefedTables (removeUnrefedTables s) =
      { removeUnrefedTables s with
        tables :=
          (removeUnrefedTables s).tables.filter
            (fun t => !(tableIdsToDelete (removeUnrefedTables s)).contains t.id) } := rfl
  rw [h2, htab]

/-- The removal pass drops every non-anchored derived table that no chart
resolves to (by id). -/
theorem removeUnrefedTables_removes (s : DataFormulatorState) (U : DictTable)
    (hU : U ∈ s.tables) (hder : U.derive.isSome = true) (hanch : U.anchored = false)
    (hunref : ∀ c ∈ s.charts,
      (getDataTable c s.tables s.charts s.conceptShelfItems).id ≠ U.id) :
    ∀ t ∈ (removeUnrefedTables s).tables, t.id ≠ U.id := by
  intro t ht
  rw [removeUnrefedTables_tables] at ht
  obtain ⟨htMem, htP⟩ := List.mem_filter.mp ht
  rw [Bool.not_eq_true'] at htP
  intro heq
  have hnotref : U.id ∉ chartRefedTableIds s := by
    intro hmem
    obtain ⟨tb, htb, htbid⟩ := List.mem_map.mp hmem
    obtain ⟨c, hcmem, hcres⟩ := List.mem_map.mp htb
    exact hunref c hcmem (by rw [hcres]; exact htbid)
  have hUun : U.id ∈ getUnrefedDerivedTableIds s := by
    rw [getUnrefedDerivedTableIds_eq]
    refine List.mem_map.mpr ⟨U, List.mem_filter.mpr ⟨hU, ?_⟩, rfl⟩
    rw [Bool.and_eq_true_iff]
    refine ⟨hder, ?_⟩
    rw [Bool.not_eq_true']
    cases hcont : (chartRefedTableIds s).contains U.id with
    | false => rfl
    | true => exact absurd (List.elem_iff.mp hcont) hnotref
  have hUdel : U.id ∈ tableIdsToDelete s := by
    refine List.mem_map.mpr ⟨U, List.mem_filter.mpr ⟨hU, ?_⟩, rfl⟩
    rw [Bool.and_eq_true_iff]
    exact ⟨by rw [hanch]; rfl, List.elem_iff.mpr hUun⟩
  rw [heq] at htP
  have hc2 : (tableIdsToDelete s).contains U.id = true := List.elem_iff.mpr hUdel
  rw [htP] at hc2
  exact Bool.false_ne_true hc2

/-- `deleteChartsRoutine` drops every non-anchored derived table that no
remaining chart references, provided every remaining chart's `tableRef`
resolves to an existing table (so the `tables[0]` fallback of
`getDataTable` never pins an unrelated table). -/
theorem deleteChartsRoutine_removes (s : DataFormulatorState) (ids : List String)
    (U : DictTable) (hU : U ∈ s.tables) (hder : U.derive.isSome = true)
    (hanch : U.anchored = false)
    (hnoref : ∀ c ∈ s.charts, c.id ∉ ids → c.tableRef ≠ U.id)
    (hresolve : ∀ c ∈ s.charts, c.id ∉ ids → ∃ t ∈ s.tables, t.id = c.tableRef) :
    ∀ t ∈ (deleteChartsRoutine s ids).tables, t.id ≠ U.id := by
  unfold deleteChartsRoutine
  refine removeUnrefedTables_removes _ U hU hder hanch ?_
  intro c hcmem
  have hcmem1 : c ∈ s.charts.filter (fun c => !ids.contains c.id) := hcmem
  obtain ⟨hcs, hcid⟩ := List.mem_filter.mp hcmem1
  rw [Bool.not_eq_true'] at hcid
  have hcnot : c.id ∉ ids := by
    intro hm
    have hc2 : ids.contains c.id = true := List.elem_iff.mpr hm
    rw [hcid] at hc2
    exact Bool.false_ne_true hc2
  obtain ⟨t1, ht1mem, ht1id⟩ := hresolve c hcs hcnot
  have hfind : (s.tables.find? (fun t => t.id = c.tableRef)).isSome := by
    apply List.find?_isSome.mpr
    exact ⟨t1, ht1mem, decide_eq_true ht1id⟩
  obtain ⟨t0, hfind0⟩ := Option.isSome_iff_exists.mp hfind
  have ht0id : t0.id = c.tableRef := by
    have hpt0 := List.find?_some hfind0
    simpa using hpt0
  have hgd : getDataTable c s.tables (s.charts.filter (fun c => !ids.contains c.id))
      s.conceptShelfItems = t0 := by
    unfold getDataTable
    rw [hfind0]
  show (getDataTable c s.tables (s.charts.filter (fun c => !ids.contains c.id))
    s.conceptShelfItems).id ≠ U.id
  rw [hgd, ht0id]
  exact hnoref c hcs hcnot

/-- C3 (amended): provided every remaining chart's `tableRef` resolves to
an existing table, deleting the sole chart referencing a non-anchored
derived table removes that table; any further non-anchored derived table
referenced by no remaining chart (the two-level cascade) is removed in the
same pass; and the pass has already reached the fixpoint of the
"repeat until no further table becomes unreferenced" check — re-running
the unreferenced-table removal changes nothing. -/
theorem soleChartDelete_cascades (s : DataFormulatorState) (chartId : String)
    (T : DictTable) (hT : T ∈ s.tables) (hder : T.derive.isSome = true)
    (hanch : T.anchored = false)
    (hsole : ∀ c ∈ s.charts, c.tableRef = T.id → c.id = chartId)
    (hresolve : ∀ c ∈ s.charts, c.id ≠ chartId → ∃ t ∈ s.tables, t.id = c.tableRef) :
    (∀ t ∈ (deleteChart s chartId).tables, t.id ≠ T.id) ∧
    (∀ T2, T2 ∈ s.tables → T2.derive.isSome = true → T2.anchored = false →
      (∀ c ∈ s.charts, c.id ≠ chartId → c.tableRef ≠ T2.id) →
      ∀ t ∈ (deleteChart s chartId).tables, t.id ≠ T2.id) ∧
    removeUnrefedTables (deleteChart s chartId) = deleteChart s chartId := by
  have hres1 : ∀ c ∈ s.charts, c.id ∉ [chartId] → ∃ t ∈ s.tables, t.id = c.tableRef := by
    intro c hc hnot
    exact hresolve c hc (by simpa using hnot)
  refine ⟨?_, ?_, ?_⟩
  · apply deleteChartsRoutine_removes s [chartId] T hT hder hanch _ hres1
    intro c hc hnot heq
    exact hnot (by simp [hsole c hc heq])
  · intro T2 hT2 hder2 hanch2 hnoref2
    apply deleteChartsRoutine_removes s [chartId] T2 hT2 hder2 hanch2 _ hres1
    intro c hc hnot
    exact hnoref2 c hc (by simpa using hnot)
  · show removeUnrefedTables (deleteChartsRoutine s [chartId]) =
      deleteChartsRoutine s [chartId]
    unfold deleteChartsRoutine
    exact removeUnrefedTables_idem _

/-- A chart whose `tableRef` matches no existing table. -/
def cxDanglingChart : Chart :=
  { id := "c2", chartType := "Bar Chart", encodingMap := [], tableRef := "zzz",
    saved := false, source := "user" }

/-- A state with one derived, non-anchored table `t1`, the sole chart `c1`
referencing it, and a second chart whose reference dangles. -/
def danglingState : DataFormulatorState :=
  { tables := [cxDerivedTable], charts := [cxChart, cxDanglingChart],
    conceptShelfItems := [] }

/-- C3 (counterexample): the claim (for every state) fails. In
`danglingState`, `c1` is the sole chart referencing the non-anchored derived
table `t1`, yet deleting `c1` does not remove `t1`: the remaining chart's
dangling `tableRef` makes `getDataTable` fall back to `tables[0]`, which
counts `t1` as still referenced. -/
theorem soleChartDelete_counterexample :
    (danglingState.charts.filter (fun c => c.tableRef = cxDerivedTable.id)).map Chart.id
      = ["c1"] ∧
    cxDerivedTable.derive.isSome = true ∧
    cxDerivedTable.anchored = false ∧
    (deleteChart danglingState "c1").tables = [cxDerivedTable] := by
  exact ⟨by decide, by decide, by decide, by decide⟩

/-- C3 witness: the amended statement at the concrete well-formed state
(root table, derived table `t1`, sole chart `c1` on `t1`). -/
theorem soleChartDelete_cascades_witness :
    (∀ t ∈ (deleteChart wellFormedState "c1").tables, t.id ≠ cxDerivedTable.id) ∧
    (∀ T2, T2 ∈ wellFormedState.tables → T2.derive.isSome = true → T2.anchored = false →
      (∀ c ∈ wellFormedState.charts, c.id ≠ "c1" → c.tableRef ≠ T2.id) →
      ∀ t ∈ (deleteChart wellFormedState "c1").tables, t.id ≠ T2.id) ∧
    removeUnrefedTables (deleteChart wellFormedState "c1") =
      deleteChart wellFormedState "c1" :=
  soleChartDelete_cascades wellFormedState "c1" cxDerivedTable (by decide) (by decide)
    (by decide) (by decide) (by decide)

/-! ## C8 — color-domain stabilization -/

/-- Reading a key just written. -/
theorem objGetL_objSetL_eq (l : List (String × JVal)) (k : String) (v : JVal) :
    objGetL (objSetL l k v) k = v := by
  induction l with
  | nil => simp [objSetL, objGetL]
  | cons kv tl ih =>
    by_cases h : kv.1 = k
    · simp [objSetL, objGetL, h]
    · simp [objSetL, objGetL, h, ih]

/-- Writing one key leaves the others unchanged. -/
theorem objGetL_objSetL_ne (l : List (String × JVal)) (k k1 : String) (v : JVal)
    (h : k1 ≠ k) : objGetL (objSetL l k1 v) k = objGetL l k := by
  induction l with
  | nil => simp [objSetL, objGetL, h]
  | cons kv tl ih =>
    by_cases h2 : kv.1 = k1
    · simp [objSetL, objGetL, h2, h]
    · simp only [objSetL, h2, if_false]
      by_cases h3 : kv.1 = k
      · simp [objGetL, h3]
      · simp [objGetL, h3, ih]

/-- `JEntries.set` on one key leaves lookups of another unchanged. -/
theorem JEntries.lookup_set_ne : ∀ (es : JEntries) (k k1 : String) (v : JVal),
    k1 ≠ k → (es.set k1 v).lookup k = es.lookup k
  | .nil, k, k1, v, h => by simp [JEntries.set, JEntries.lookup, h]
  | .cons k2 v2 tl, k, k1, v, h => by
    by_cases h2 : k2 = k1
    · simp [JEntries.set, JEntries.lookup, h2, h]
    · simp only [JEntries.set, h2, if_false]
      by_cases h3 : k2 = k
      · simp [JEntries.lookup, h3]
      · simp [JEntries.lookup, h3, JEntries.lookup_set_ne tl k k1 v h]

/-- A key holding an object is present. -/
theorem objHasL_of_obj (l : List (String × JVal)) (k : String) (es : JEntries)
    (h : objGetL l k = .obj es) : objHasL l k = true := by
  induction l with
  | nil => simp [objGetL] at h
  | cons kv tl ih =>
    by_cases h2 : kv.1 = k
    · simp [objHasL, List.any_cons, h2]
    · simp only [objGetL, h2, if_false] at h
      have htl := ih h
      unfold objHasL at htl ⊢
      rw [List.any_cons, htl, Bool.or_true]

/-- Membership in the seeded dedup accumulator. -/
theorem mem_dedupFirstAux (seen : List JVal) (l : List JVal) (x : JVal) :
    x ∈ dedupFirstAux seen l ↔ x ∈ l ∧ x ∉ seen := by
  induction l generalizing seen with
  | nil => simp [dedupFirstAux]
  | cons y ys ih =>
    by_cases hy : y ∈ seen
    · rw [dedupFirstAux, if_pos hy, ih]
      constructor
      · rintro ⟨hx, hs⟩
        exact ⟨List.mem_cons_of_mem _ hx, hs⟩
      · rintro ⟨hx, hs⟩
        rcases List.mem_cons.mp hx with h | h
        · exact absurd (h ▸ hy) hs
        · exact ⟨h, hs⟩
    · rw [dedupFirstAux, if_neg hy]
      constructor
      · intro hx
        rcases List.mem_cons.mp hx with h | h
        · exact ⟨h ▸ List.mem_cons_self y ys, h ▸ hy⟩
        · obtain ⟨h1, h2⟩ := (ih (seen ++ [y])).mp h
          refine ⟨List.mem_cons_of_mem _ h1, ?_⟩
          intro hs
          exact h2 (List.mem_append_left _ hs)
      · rintro ⟨hx, hs⟩
        rcases List.mem_cons.mp hx with h | h
        · exact h ▸ List.mem_cons_self _ _
        · by_cases hxy : x = y
          · exact hxy ▸ List.mem_cons_self _ _
          · apply List.mem_cons_of_mem
            apply (ih (seen ++ [y])).mpr
            refine ⟨h, ?_⟩
            intro hmem
            rcases List.mem_append.mp hmem with hm | hm
            · exact hs hm
            · exact hxy (List.mem_singleton.mp hm)

/-- `[...new Set(xs)]` has the same members as `xs`. -/
theorem mem_dedupFirst (l : List JVal) (x : JVal) : x ∈ dedupFirst l ↔ x ∈ l := by
  rw [dedupFirst, mem_dedupFirstAux]
  simp

/-- The seeded dedup accumulator has no duplicates. -/
theorem dedupFirstAux_nodup (seen : List JVal) (l : List JVal) :
    (dedupFirstAux seen l).Nodup := by
  induction l generalizing seen with
  | nil => exact List.nodup_nil
  | cons y ys ih =>
    by_cases hy : y ∈ seen
    · rw [dedupFirstAux, if_pos hy]
      exact ih seen
    · rw [dedupFirstAux, if_neg hy]
      refine List.nodup_cons.mpr ⟨?_, ih (seen ++ [y])⟩
      intro hmem
      obtain ⟨_, h2⟩ := (mem_dedupFirstAux _ _ _).mp hmem
      exact h2 (List.mem_append_right _ (List.mem_singleton.mpr rfl))

/-- `[...new Set(xs)]` has no duplicates. -/
theorem dedupFirst_nodup (l : List JVal) : (dedupFirst l).Nodup :=
  dedupFirstAux_nodup [] l

/-- Setting the same key twice keeps only the last write. -/
theorem objSetL_objSetL_same (l : List (String × JVal)) (k : String) (v w : JVal) :
    objSetL (objSetL l k v) k w = objSetL l k w := by
  induction l with
  | nil => simp [objSetL]
  | cons kv tl ih =>
    by_cases h : kv.1 = k
    · simp [objSetL, h]
    · simp [objSetL, h, ih]

/-- The resolved color encoding pins its scale domain to `D` and its legend
values to `L`. -/
def scaleLegendPinned (eo : List (String × JVal)) (D L : JVal) : Prop :=
  (∃ es, objGetL eo "scale" = .obj es ∧ es.lookup "domain" = some D) ∧
  (∃ es, objGetL eo "legend" = .obj es ∧ es.lookup "values" = some L)

/-- Writes to keys other than `scale`/`legend` keep the pin. -/
theorem scaleLegendPinned_objSetL (eo : List (String × JVal)) (D L : JVal)
    (k : String) (v : JVal) (h1 : k ≠ "scale") (h2 : k ≠ "legend")
    (h : scaleLegendPinned eo D L) : scaleLegendPinned (objSetL eo k v) D L := by
  obtain ⟨⟨es1, hs1, hd⟩, ⟨es2, hs2, hv⟩⟩ := h
  constructor
  · exact ⟨es1, by rw [objGetL_objSetL_ne _ _ _ _ h1]; exact hs1, hd⟩
  · exact ⟨es2, by rw [objGetL_objSetL_ne _ _ _ _ h2]; exact hs2, hv⟩

/-- Nested writes into `legend` under another sub-key keep the pin. -/
theorem scaleLegendPinned_setNested_legend (eo : List (String × JVal)) (D L : JVal)
    (sub : String) (v : JVal) (hsub : sub ≠ "values")
    (h : scaleLegendPinned eo D L) : scaleLegendPinned (setNestedL eo "legend" sub v) D L := by
  obtain ⟨⟨es1, hs1, hd⟩, ⟨es2, hs2, hv⟩⟩ := h
  unfold setNestedL
  rw [hs2]
  constructor
  · refine ⟨es1, ?_, hd⟩
    rw [objGetL_objSetL_ne _ _ _ _ (by decide : "legend" ≠ "scale")]
    exact hs1
  · refine ⟨es2.set sub v, ?_, ?_⟩
    · rw [objGetL_objSetL_eq]
    · rw [JEntries.lookup_set_ne _ _ _ _ hsub]
      exact hv

/-- Nested writes into `scale` under another sub-key keep the pin. -/
theorem scaleLegendPinned_setNested_scale (eo : List (String × JVal)) (D L : JVal)
    (sub : String) (v : JVal) (hsub : sub ≠ "domain")
    (h : scaleLegendPinned eo D L) : scaleLegendPinned (setNestedL eo "scale" sub v) D L := by
  obtain ⟨⟨es1, hs1, hd⟩, ⟨es2, hs2, hv⟩⟩ := h
  unfold setNestedL
  rw [hs1]
  constructor
  · refine ⟨es1.set sub v, ?_, ?_⟩
    · rw [objGetL_objSetL_eq]
    · rw [JEntries.lookup_set_ne _ _ _ _ hsub]
      exact hd
  · refine ⟨es2, ?_, hv⟩
    rw [objGetL_objSetL_ne _ _ _ _ (by decide : "scale" ≠ "legend")]
    exact hs2

/-- The stacking step keeps the pin. -/
theorem scaleLegendPinned_stackStep (e : EncodingItem) (eo : List (String × JVal))
    (D L : JVal) (h : scaleLegendPinned eo D L) :
    scaleLegendPinned (stackStep e eo) D L := by
  unfold stackStep
  split
  · exact scaleLegendPinned_objSetL eo D L "stack" _ (by decide) (by decide) h
  · exact h

/-- The scheme step keeps the pin: with `scale` present it only adds the
`scheme` sub-key. -/
theorem scaleLegendPinned_schemeStep (e : EncodingItem) (eo : List (String × JVal))
    (D L : JVal) (h : scaleLegendPinned eo D L) :
    scaleLegendPinned (schemeStep e eo) D L := by
  unfold schemeStep
  split
  · have h2 := h
    obtain ⟨⟨es1, hs1, hd⟩, _⟩ := h2
    rw [if_pos (objHasL_of_obj _ _ _ hs1)]
    exact scaleLegendPinned_setNested_scale eo D L "scheme" _ (by decide) h
  · exact h

/-- The sorting step keeps the pin (it only ever adds a `sort` key to the
encoding object). -/
theorem scaleLegendPinned_sortStep (P : JsPrims) (e : EncodingItem) (ch : String)
    (fld : Option FieldItem) (eo : List (String × JVal)) (vg : JVal) (D L : JVal)
    (h : scaleLegendPinned eo D L) :
    scaleLegendPinned (sortStep P e ch fld eo vg).1 D L := by
  have hset : ∀ v, scaleLegendPinned (objSetL eo "sort" v) D L :=
    fun v => scaleLegendPinned_objSetL eo D L "sort" v (by decide) (by decide) h
  unfold sortStep
  repeat first
  | exact h
  | exact hset _
  | dsimp only
  | split

/-- When not in preprocessed-aggregate mode, the aggregation step never
touches the `type` member. -/
theorem aggregationStep_objGetL_type (ap : Bool) (e : EncodingItem) (f : FieldItem)
    (eo : List (String × JVal)) (h5 : (ap && jsTruthyStr e.aggregate) = false) :
    objGetL (aggregationStep ap e f eo) "type" = objGetL eo "type" := by
  unfold aggregationStep
  cases ap with
  | true =>
    have ht : jsTruthyStr e.aggregate = false := by simpa using h5
    simp [ht]
  | false =>
    simp only [Bool.false_eq_true, if_false]
    by_cases ht : jsTruthyStr e.aggregate = true
    · rw [if_pos ht]
      split
      · rw [objGetL_objSetL_ne _ _ _ _ (by decide : "title" ≠ "type"),
          objGetL_objSetL_ne _ _ _ _ (by decide : "aggregate" ≠ "type")]
      · rw [objGetL_objSetL_ne _ _ _ _ (by decide : "aggregate" ≠ "type")]
    · rw [if_neg ht]

/-- The color-domain block pins the scale domain to the full (deduplicated,
sorted) field domain and the legend values to the present (deduplicated,
sorted) values, whenever the encoding resolved to nominal and the present
values are a strict subset of the field's domain. -/
theorem colorDomainStep_pins (wt : List JVal) (f : FieldItem)
    (e : List (String × JVal))
    (htype : objGetL e "type" = .str "nominal")
    (hsub : ∀ v ∈ wt.map (fun r => jsGetProp r f.name), v ∈ f.domain)
    (hstrict : ∃ d ∈ f.domain, d ∉ wt.map (fun r => jsGetProp r f.name)) :
    scaleLegendPinned (colorDomainStep wt "color" f e)
      (jarr (jsSortAsc (dedupFirst f.domain)))
      (jarr (jsSortAsc (dedupFirst (wt.map (fun r => jsGetProp r f.name))))) := by
  have hca : (dedupFirst (wt.map (fun r => jsGetProp r f.name))).all
      (fun v => f.domain.contains v) = true := by
    rw [List.all_eq_true]
    intro v hm
    exact List.elem_iff.mpr (hsub v ((mem_dedupFirst _ _).mp hm))
  have hcb : f.domain.length > (dedupFirst (wt.map (fun r => jsGetProp r f.name))).length := by
    obtain ⟨d, hd, hdn⟩ := hstrict
    have hnd := dedupFirst_nodup (wt.map (fun r => jsGetProp r f.name))
    have hsubF : (dedupFirst (wt.map (fun r => jsGetProp r f.name))).toFinset ⊆
        f.domain.toFinset := by
      intro x hx
      rw [List.mem_toFinset] at hx ⊢
      exact hsub x ((mem_dedupFirst _ _).mp hx)
    have hss : (dedupFirst (wt.map (fun r => jsGetProp r f.name))).toFinset ⊂
        f.domain.toFinset := by
      rw [Finset.ssubset_iff_of_subset hsubF]
      refine ⟨d, List.mem_toFinset.mpr hd, ?_⟩
      rw [List.mem_toFinset, mem_dedupFirst]
      exact hdn
    have hlt := Finset.card_lt_card hss
    have heq := List.toFinset_card_of_nodup hnd
    have hle := List.toFinset_card_le f.domain
    omega
  have hc1 : ((dedupFirst (wt.map (fun r => jsGetProp r f.name))).all
      (fun v => f.domain.contains v) &&
      decide (f.domain.length > (dedupFirst (wt.map (fun r => jsGetProp r f.name))).length))
      = true := by
    rw [hca, decide_eq_true hcb]
    rfl
  have base : scaleLegendPinned
      (objSetL (objSetL e "scale"
          (jobj [("domain", jarr (jsSortAsc (dedupFirst f.domain)))]))
        "legend"
        (jobj [("values", jarr (jsSortAsc (dedupFirst (wt.map (fun r => jsGetProp r f.name)))))]))
      (jarr (jsSortAsc (dedupFirst f.domain)))
      (jarr (jsSortAsc (dedupFirst (wt.map (fun r => jsGetProp r f.name))))) := by
    constructor
    · refine ⟨JEntries.ofList [("domain", jarr (jsSortAsc (dedupFirst f.domain)))], ?_, ?_⟩
      · rw [objGetL_objSetL_ne _ _ _ _ (by decide : "legend" ≠ "scale"), objGetL_objSetL_eq]
        rfl
      · simp [JEntries.ofList, JEntries.lookup]
    · refine ⟨JEntries.ofList
        [("values", jarr (jsSortAsc (dedupFirst (wt.map (fun r => jsGetProp r f.name)))))],
        ?_, ?_⟩
      · rw [objGetL_objSetL_eq]
        rfl
      · simp [JEntries.ofList, JEntries.lookup]
  unfold colorDomainStep
  dsimp only
  rw [htype]
  rw [if_pos (by decide :
    ((JVal.str "nominal" == JVal.str "nominal") && decide (("color" : String) = "color")) = true)]
  rw [if_pos hc1]
  split
  · split
    · exact scaleLegendPinned_setNested_scale _ _ _ _ _ (by decide)
        (scaleLegendPinned_setNested_legend _ _ _ _ _ (by decide)
          (scaleLegendPinned_setNested_legend _ _ _ _ _ (by decide) base))
    · exact scaleLegendPinned_setNested_scale _ _ _ _ _ (by decide) base
  · split
    · exact scaleLegendPinned_setNested_legend _ _ _ _ _ (by decide)
        (scaleLegendPinned_setNested_legend _ _ _ _ _ (by decide) base)
    · exact base

def w8Field : FieldItem :=
  { id := "f1", name := "cat", type := .string, source := "original",
    domain := [.str "A", .str "B", .str "C", .str "D"], tableRef := "t1" }

def w8Enc : EncodingItem := { fieldID := some "f1" }

def w8Rows : List JVal :=
  [jobj [("cat", .str "A")], jobj [("cat", .str "C")], jobj [("cat", .str "A")]]

/-- C8: for every field bound to the color channel whose display type
resolves to nominal and whose full known domain strictly contains the
values present in the working rows, the assembled channel object pins the
color scale's domain to the full domain, deduplicated and sorted, and the
legend's displayed values to the present values, deduplicated and sorted. -/
theorem colorDomain_stabilization (P : JsPrims) (chartType : String)
    (aggrPreprocessed : Bool) (conceptShelfItems : List FieldItem)
    (workingTable : List JVal) (vgObj : JVal) (e : EncodingItem)
    (fid : String) (f : FieldItem)
    (h1 : e.fieldID = some fid) (h2 : fid ≠ "")
    (h3 : conceptShelfItems.find? (fun g => some g.id = some fid) = some f)
    (h4 : getDType P.isNum P.isDate f.type
      (workingTable.map (fun r => jsGetProp r f.name)) = "nominal")
    (h5 : (aggrPreprocessed && jsTruthyStr e.aggregate) = false)
    (h6 : ∀ v ∈ workingTable.map (fun r => jsGetProp r f.name), v ∈ f.domain)
    (h7 : ∃ d ∈ f.domain, d ∉ workingTable.map (fun r => jsGetProp r f.name)) :
    scaleLegendPinned
      (buildEncodingObj P chartType aggrPreprocessed conceptShelfItems
        workingTable vgObj "color" e).1
      (jarr (jsSortAsc (dedupFirst f.domain)))
      (jarr (jsSortAsc (dedupFirst (workingTable.map (fun r => jsGetProp r f.name))))) := by
  have htru : jsTruthyStr (some fid) = true := by simp [jsTruthyStr, h2]
  have hfield : (if jsTruthyStr e.fieldID then
      conceptShelfItems.find? (fun g => some g.id = e.fieldID) else none) = some f := by
    rw [h1, if_pos htru]
    exact h3
  have shared : ∀ E1 : List (String × JVal), objGetL E1 "type" = JVal.str "nominal" →
      scaleLegendPinned
        (colorDomainStep workingTable "color" f
          (lineChartScaleStep chartType "color" (aggregationStep aggrPreprocessed e f E1)))
        (jarr (jsSortAsc (dedupFirst f.domain)))
        (jarr (jsSortAsc (dedupFirst (workingTable.map (fun r => jsGetProp r f.name))))) := by
    intro E1 hE1
    have htype4 : objGetL (aggregationStep aggrPreprocessed e f E1) "type"
        = JVal.str "nominal" := by
      rw [aggregationStep_objGetL_type aggrPreprocessed e f E1 h5, hE1]
    have hline : lineChartScaleStep chartType "color" (aggregationStep aggrPreprocessed e f E1)
        = aggregationStep aggrPreprocessed e f E1 := by
      unfold lineChartScaleStep
      rw [htype4]
      have hx : decide (("color" : String) = "x") = false := by decide
      simp [hx]
    rw [hline]
    exact colorDomainStep_pins workingTable f _ htype4 h6 h7
  have hfs : ∀ E0 : List (String × JVal),
      scaleLegendPinned
        (fieldStep P chartType aggrPreprocessed workingTable "color" e f E0)
        (jarr (jsSortAsc (dedupFirst f.domain)))
        (jarr (jsSortAsc (dedupFirst (workingTable.map (fun r => jsGetProp r f.name))))) := by
    intro E0
    unfold fieldStep
    dsimp only
    rw [h4]
    split
    · rw [if_pos (by decide : (["color", "size", "column", "row"].contains "color") = true),
        objSetL_objSetL_same]
      exact shared _ (by rw [objGetL_objSetL_eq])
    · exact shared _ (by rw [objGetL_objSetL_eq])
  unfold buildEncodingObj
  dsimp only
  rw [hfield]
  exact scaleLegendPinned_schemeStep _ _ _ _
    (scaleLegendPinned_stackStep _ _ _ _
      (scaleLegendPinned_sortStep _ _ _ _ _ _ _ _ (hfs _)))

/-- Witness for C8 at the spec's own example: domain `{A,B,C,D}`, rows
containing only `{A,C}`; the scale domain evaluates to `[A,B,C,D]` and the
legend values to `[A,C]`. -/
theorem colorDomain_stabilization_witness :
    scaleLegendPinned
      (buildEncodingObj samplePrims "Scatter Plot" false [w8Field] w8Rows
        (jobj []) "color" w8Enc).1
      (jarr (jsSortAsc (dedupFirst w8Field.domain)))
      (jarr (jsSortAsc (dedupFirst (w8Rows.map (fun r => jsGetProp r w8Field.name))))) ∧
    jsSortAsc (dedupFirst w8Field.domain)
      = [.str "A", .str "B", .str "C", .str "D"] ∧
    jsSortAsc (dedupFirst (w8Rows.map (fun r => jsGetProp r w8Field.name)))
      = [.str "A", .str "C"] :=
  ⟨colorDomain_stabilization samplePrims "Scatter Plot" false [w8Field] w8Rows (jobj [])
      w8Enc "f1" w8Field rfl (by decide) (by decide) rfl rfl (by decide) (by decide),
    by simp [jsSortAsc, dedupFirst, dedupFirstAux, jsSortInsert, jsSortLE, jsToString,
      w8Field]; decide,
    by simp [jsSortAsc, dedupFirst, dedupFirstAux, jsSortInsert, jsSortLE, jsToString,
      w8Field, w8Rows, jsGetProp, jobj, JEntries.ofList, JEntries.lookup]; decide⟩
